import Mathlib

/-!
# Verification of the biotus-helper conversation pipeline

Shallow embedding of the intent-resolution / retrieval / re-ranking pipeline of
the `tele4rom/biotus-helper` repository (the newer, `vitahub-xml`-schema variant:
`src/services/chatbot.ts`, `src/services/vectorSearch.ts`, `src/utils/validation.ts`),
together with proofs of the testable properties stated in its specification.

External capabilities (the embedding provider, the vector index, the language
model, and the JavaScript `JSON.parse` builtin) are modelled as oracle
parameters; every function of the repository itself is translated directly from
the TypeScript source.  JavaScript strings are modelled at code-point level with
explicit `toLowerCase`/`includes`/`trim` translations covering the ASCII and
Cyrillic alphabets actually used by the code's lexicons; numbers are modelled as
rationals (only order comparisons, `min` and `*`/`±30%` arithmetic occur).
-/

/-! ## JavaScript string primitives -/

/-- Code-point translation of `String.prototype.toLowerCase` restricted to the
alphabets appearing in the source (ASCII letters and the Ukrainian/Russian
Cyrillic letters of the keyword lexicons). -/
def jsToLowerChar (c : Char) : Char :=
  let n := c.toNat
  if 65 ≤ n ∧ n ≤ 90 then Char.ofNat (n + 32)
  else if 0x410 ≤ n ∧ n ≤ 0x42F then Char.ofNat (n + 0x20)
  else if n = 0x401 then Char.ofNat 0x451
  else if n = 0x404 then Char.ofNat 0x454
  else if n = 0x406 then Char.ofNat 0x456
  else if n = 0x407 then Char.ofNat 0x457
  else if n = 0x490 then Char.ofNat 0x491
  else c

/-- Code-point translation of `String.prototype.toUpperCase` on the same
alphabets (used for `gtin`/article normalisation, which is ASCII in practice). -/
def jsToUpperChar (c : Char) : Char :=
  let n := c.toNat
  if 97 ≤ n ∧ n ≤ 122 then Char.ofNat (n - 32)
  else if 0x430 ≤ n ∧ n ≤ 0x44F then Char.ofNat (n - 0x20)
  else if n = 0x451 then Char.ofNat 0x401
  else if n = 0x454 then Char.ofNat 0x404
  else if n = 0x456 then Char.ofNat 0x406
  else if n = 0x457 then Char.ofNat 0x407
  else if n = 0x491 then Char.ofNat 0x490
  else c

/-- `s.toLowerCase()` -/
def jsToLower (s : String) : String := String.mk (s.toList.map jsToLowerChar)

/-- `s.toUpperCase()` -/
def jsToUpper (s : String) : String := String.mk (s.toList.map jsToUpperChar)

/-- `needle` occurs as a contiguous run of `hay` (at any position, including
the empty run at the end). -/
def listIncludes (hay needle : List Char) : Bool :=
  match hay with
  | [] => needle.isEmpty
  | _ :: rest => needle.isPrefixOf hay || listIncludes rest needle

/-- `hay.includes(needle)` -/
def jsIncludes (hay needle : String) : Bool := listIncludes hay.toList needle.toList

/-- The character class recognised by `String.prototype.trim` (ECMAScript
WhiteSpace and LineTerminator code points). -/
def jsIsWhitespace (c : Char) : Bool :=
  let n := c.toNat
  n = 0x9 ∨ n = 0xB ∨ n = 0xC ∨ n = 0x20 ∨ n = 0xA0 ∨ n = 0xFEFF ∨
  n = 0xA ∨ n = 0xD ∨ n = 0x2028 ∨ n = 0x2029 ∨ n = 0x1680 ∨
  (0x2000 ≤ n ∧ n ≤ 0x200A) ∨ n = 0x202F ∨ n = 0x205F ∨ n = 0x3000

/-- `s.trim()` -/
def jsTrim (s : String) : String :=
  String.mk (((s.toList.dropWhile jsIsWhitespace).reverse.dropWhile jsIsWhitespace).reverse)

/-- Width of a code point in UTF-16 code units (JavaScript `length` counts
code units). -/
def utf16Width (c : Char) : Nat := if c.toNat ≥ 0x10000 then 2 else 1

/-- `s.length` in JavaScript, i.e. the number of UTF-16 code units. -/
def jsLength (s : String) : Nat := (s.toList.map utf16Width).sum

/-- `substring(0, n)` measured in UTF-16 code units.  A code point whose pair of
code units would straddle the cut is dropped whole (JavaScript would retain a
lone surrogate there, which has no code-point representation). -/
def utf16Take (n : Nat) : List Char → List Char
  | [] => []
  | c :: rest =>
    let w := utf16Width c
    if w ≤ n then c :: utf16Take (n - w) rest else []

/-! ## Data model (`src/types/product.ts`) -/

/-- `ProductMetadata` of the `vitahub-xml` catalog schema. -/
structure ProductMetadata where
  id : String
  availability : String
  brand : String
  categories : List String
  category_main : String
  category_path : String
  description : String
  gtin : String
  image_link : String
  link : String
  price : Rat
  price_currency : String
  price_formatted : String
  search_text : String
  title : String
  deriving Repr, DecidableEq

/-- A retrieved candidate: catalog id, similarity score, metadata. -/
structure SearchMatch where
  id : String
  score : Rat
  metadata : ProductMetadata
  deriving Repr, DecidableEq

/-- `VectorSearchResult` -/
structure VectorSearchResult where
  products : List SearchMatch
  hasRequiredBrand : Bool
  totalFound : Nat
  deriving Repr, DecidableEq

/-- Chat roles (`'user' | 'assistant' | 'system'`). -/
inductive ChatRole where
  | user
  | assistant
  | system
  deriving Repr, DecidableEq

/-- A turn of the conversation. -/
structure ChatMessage where
  role : ChatRole
  content : String
  deriving Repr, DecidableEq

/-- `ConversationHistory`: per-session state.  `Date` timestamps are modelled
as naturals; the JavaScript `Set` of shown ids as an insertion-ordered
duplicate-free list. -/
structure ConversationHistory where
  sessionId : String
  messages : List ChatMessage
  createdAt : Nat
  lastUpdatedAt : Nat
  shownProductIds : List String
  deriving Repr, DecidableEq

/-- `ChatRequest` -/
structure ChatRequest where
  message : String
  sessionId : Option String
  deriving Repr, DecidableEq

/-- The relevance verdict of a `ChatResponse`. -/
structure RelevanceCheck where
  isRelevant : Bool
  reason : String
  deriving Repr, DecidableEq

/-- A structured product item of the generation model's JSON output. -/
structure StructuredProduct where
  id : String
  title : String
  brand : String
  price : String
  article : String
  image : String
  link : String
  reason : String
  deriving Repr, DecidableEq

/-- `ChatResponse`: the response envelope of one turn.  `products = none`
models both an absent key and JavaScript `null`. -/
structure ChatResponse where
  response : String
  sessionId : String
  productsFound : Nat
  relevanceCheck : RelevanceCheck
  products : Option (List StructuredProduct)
  deriving Repr, DecidableEq

/-- `SearchConfig` (the `requiredBrands` and `filter` fields of the source are
never read by the search logic — the metadata filter is commented out — so only
the two consumed fields are modelled). -/
structure SearchConfig where
  topK : Nat
  minSimilarityScore : Rat
  deriving Repr, DecidableEq

/-- `ChatbotConfig` restricted to the fields the pipeline reads
(`maxConversationHistory`, `minProductsRequired`; model names and sampling
parameters only shape the provider calls, which are oracles here). -/
structure ChatbotConfig where
  maxConversationHistory : Nat
  minProductsRequired : Nat
  deriving Repr, DecidableEq

/-- The environment-default configuration (`MAX_CONVERSATION_HISTORY ‖ '6'`,
`MIN_PRODUCTS_PER_RESPONSE ‖ '1'`). -/
def CHATBOT_CONFIG : ChatbotConfig := ⟨6, 1⟩

/-! ## Generic stable sort (model of `Array.prototype.sort`, which is stable) -/

/-- Insert `x` before the first element `y` with `le x y` (i.e. comparator
`cmp x y ≤ 0`); ties keep the earlier element first, as the stable JS sort
does. -/
def insertLe {α : Type} (le : α → α → Bool) (x : α) : List α → List α
  | [] => [x]
  | y :: ys => if le x y then x :: y :: ys else y :: insertLe le x ys

/-- Stable insertion sort by a comparator-derived `le` relation. -/
def stableSortBy {α : Type} (le : α → α → Bool) : List α → List α
  | [] => []
  | x :: xs => insertLe le x (stableSortBy le xs)

theorem insertLe_perm {α : Type} (le : α → α → Bool) (x : α) (l : List α) :
    (insertLe le x l).Perm (x :: l) := by
  induction l with
  | nil => simp [insertLe]
  | cons y ys ih =>
    simp only [insertLe]
    split
    · exact List.Perm.refl _
    · exact (List.Perm.cons y ih).trans (List.Perm.swap x y ys)

theorem stableSortBy_perm {α : Type} (le : α → α → Bool) (l : List α) :
    (stableSortBy le l).Perm l := by
  induction l with
  | nil => exact List.Perm.refl _
  | cons x xs ih =>
    exact (insertLe_perm le x (stableSortBy le xs)).trans (List.Perm.cons x ih)

/-! ## `src/utils/validation.ts` -/

/-- `hasRequiredBrand`: does the list contain a Biotus / My Nutri Week product?
Membership is a substring, case-insensitive test against the brand name. -/
def hasRequiredBrand (products : List SearchMatch) : Bool :=
  products.any fun product =>
    let brand := jsToLower product.metadata.brand
    (["biotus", "my nutri week"] : List String).any fun requiredBrand =>
      jsIncludes brand requiredBrand

/-- `filterAvailableProducts`: in the `vitahub-xml` format the filter only
checks that metadata with a (truthy) title and brand is present. -/
def filterAvailableProducts (products : List SearchMatch) : List SearchMatch :=
  products.filter fun product =>
    product.metadata.title ≠ "" && product.metadata.brand ≠ ""

/-- `KNOWN_PREMIUM_BRANDS` (validation.ts). -/
def KNOWN_PREMIUM_BRANDS : List String :=
  ["now foods", "solgar", "nature\u0027s way", "doctor\u0027s best",
   "life extension", "jarrow formulas", "thorne", "pure encapsulations",
   "nordic naturals", "garden of life", "california gold nutrition", "natrol",
   "bluebonnet", "nature\u0027s plus", "solaray", "source naturals",
   "healthy origins"]

/-- `getBrandPriority` of validation.ts: tier 1 = house brands, tier 2 = known
premium brands, tier 3 = the rest; substring, case-insensitive matching. -/
def getBrandPriorityValidation (brand : String) : Nat :=
  let lowerBrand := jsToLower brand
  if jsIncludes lowerBrand "biotus" || jsIncludes lowerBrand "my nutri week" then 1
  else if KNOWN_PREMIUM_BRANDS.any (fun b => jsIncludes lowerBrand b) then 2
  else 3

/-- `sortProductsByRelevance`: brand priority ascending, then score
descending (`le` is "comparator ≤ 0"). -/
def sortProductsByRelevance (products : List SearchMatch) : List SearchMatch :=
  stableSortBy
    (fun a b =>
      let priorityA := getBrandPriorityValidation a.metadata.brand
      let priorityB := getBrandPriorityValidation b.metadata.brand
      if priorityA ≠ priorityB then priorityA < priorityB else b.score ≤ a.score)
    products

/-- `sanitizeInput`: trim, then truncate to 500 UTF-16 code units. -/
def sanitizeInput (input : String) : String :=
  let sanitized := jsTrim input
  String.mk (utf16Take 500 sanitized.toList)

def isHexChar (c : Char) : Bool :=
  ('0' ≤ c && c ≤ '9') || ('a' ≤ c && c ≤ 'f') || ('A' ≤ c && c ≤ 'F')

/-- Consume exactly `n` hex digits. -/
def hexRun : Nat → List Char → Option (List Char)
  | 0, rest => some rest
  | Nat.succ m, c :: rest => if isHexChar c then hexRun m rest else none
  | Nat.succ _, [] => none

/-- Consume one expected character. -/
def expectChar (c : Char) : List Char → Option (List Char)
  | x :: rest => if x = c then some rest else none
  | [] => none

/-- `isValidSessionId`: the anchored UUID-v4 pattern
`[0-9a-f]{8}-[0-9a-f]{4}-4[0-9a-f]{3}-[89ab][0-9a-f]{3}-[0-9a-f]{12}` with the
`i` flag, consumed group by group. -/
def isValidSessionId (sessionId : String) : Bool :=
  (do
    let l ← hexRun 8 sessionId.toList
    let l ← expectChar '-' l
    let l ← hexRun 4 l
    let l ← expectChar '-' l
    let l ← expectChar '4' l
    let l ← hexRun 3 l
    let l ← expectChar '-' l
    let l ← (match l with
             | c :: rest =>
               if c = '8' || c = '9' || c = 'a' || c = 'b' || c = 'A' || c = 'B'
               then some rest else none
             | [] => none)
    let l ← hexRun 3 l
    let l ← expectChar '-' l
    let l ← hexRun 12 l
    if l.isEmpty then some () else none).isSome

/-! ## Oracle interface for the external capabilities -/

/-- A provider failure (embedding / index / completion unreachable or empty). -/
structure ProviderError where
  message : String
  deriving Repr, DecidableEq

/-- Outcome of the intent-classification completion, composed with the
`/\x7b[\s\S]*\x7d/` extraction and `JSON.parse` of `analyzeUserIntentWithAI`:
either the reply contained no brace-delimited text, or `JSON.parse` threw, or
it produced an object whose (optional, untyped) fields are recorded.  `none`
models an absent key; `some ""` an empty string (falsy in JS). -/
inductive IntentReply where
  | noJson
  | malformed
  | fields (isRelevant : Option Bool) (searchType : Option String)
      (searchQuery : Option String) (context : Option String)
      (needsMultipleComponents : Option Bool)
  deriving Repr, DecidableEq

/-- The JSON object shape the generation-parsing step reads
(`message` field and optional `products` array). -/
structure GenJson where
  message : Option String
  products : Option (List StructuredProduct)
  deriving Repr, DecidableEq

/-- The external capabilities, as pure oracles:
* `textQuery q k` — `createEmbedding q` followed by `index.query` for the top
  `k` matches (the composite fails if either provider call fails);
* `brandQuery q brand k` — the same with a `brand $eq` metadata filter;
* `intentComplete msg history` — the classification completion of
  `analyzeUserIntentWithAI` (prompt construction folded in), already composed
  with its JSON extraction;
* `genComplete msg products history` — the final generation completion
  (`createUserPrompt`/temperature folded in), returning raw text;
* `jsonParse s` — the JavaScript `JSON.parse` builtin on the extracted
  substring, `none` when it throws. -/
structure Oracle where
  textQuery : String → Nat → Except ProviderError (List SearchMatch)
  brandQuery : String → String → Nat → Except ProviderError (List SearchMatch)
  intentComplete : String → List ChatMessage → Except ProviderError IntentReply
  genComplete : String → List SearchMatch → List ChatMessage → Except ProviderError String
  jsonParse : String → Option GenJson

/-! ## The article-code pattern `/[A-Z]{2,4}-\d{4,6}/i` -/

def isAsciiLetterChar (c : Char) : Bool :=
  ('A' ≤ c && c ≤ 'Z') || ('a' ≤ c && c ≤ 'z')

def isDigitChar (c : Char) : Bool := '0' ≤ c && c ≤ '9'

/-- Try the pattern `[A-Z]{2,4}-\d{4,6}` (with flag `i`) at the head of `l`
with exactly `k` letters: `k` ASCII letters, a hyphen, then at least 4 digits,
of which the greedy quantifier consumes at most 6. -/
def tryArticleK (l : List Char) (k : Nat) : Option (List Char) :=
  if (l.take k).length = k && (l.take k).all isAsciiLetterChar && l.get? k = some '-' then
    if 4 ≤ ((l.drop (k + 1)).takeWhile isDigitChar).length then
      some (l.take k ++ '-' :: ((l.drop (k + 1)).takeWhile isDigitChar).take 6)
    else none
  else none

/-- Try the pattern at the head of `l`; the greedy `{2,4}` quantifier
backtracks from 4 letters down to 2. -/
def tryArticleHere (l : List Char) : Option (List Char) :=
  ((tryArticleK l 4).orElse fun _ => (tryArticleK l 3).orElse fun _ => tryArticleK l 2)

/-- Leftmost match of `/[A-Z]{2,4}-\d{4,6}/i` over a character list. -/
def jsArticleScan : List Char → Option (List Char)
  | [] => none
  | c :: rest => (tryArticleHere (c :: rest)).orElse fun _ => jsArticleScan rest

/-- `message.match(/[A-Z]{2,4}-\d{4,6}/i)` — the matched text of the fast
article path of `processChatMessage` (and of `detectIntentFallback`). -/
def jsArticleMatch (s : String) : Option String :=
  (jsArticleScan s.toList).map String.mk

/-! ## `src/services/vectorSearch.ts` -/

/-- Turn-level failures of the pipeline. -/
inductive TurnError where
  | emptyMessage
  | invalidSessionId
  | searchFailed
  | generation (e : ProviderError)
  deriving Repr, DecidableEq

/-- The literal `0.7` (as a reduced fraction; `Rat` division is irreducible,
so the numeric literals of the source are written as explicit normalised
fractions). -/
def rat0_7 : Rat := ⟨7, 10, by norm_num, by norm_num⟩

/-- The literal `0.3`. -/
def rat0_3 : Rat := ⟨3, 10, by norm_num, by norm_num⟩

/-- The literal `0.2`. -/
def rat0_2 : Rat := ⟨1, 5, by norm_num, by norm_num⟩

/-- The literal `1.3`. -/
def rat1_3 : Rat := ⟨13, 10, by norm_num, by norm_num⟩

/-- Environment-default search configuration
(`MAX_PRODUCTS_PER_RESPONSE ‖ '20'`, `SIMILARITY_THRESHOLD ‖ '0.7'`). -/
def DEFAULT_SEARCH_CONFIG : SearchConfig := ⟨20, rat0_7⟩

/-- `replace(/[-\s]/g, '')` -/
def stripDashSpace (s : String) : String :=
  String.mk (s.toList.filter fun c => !(c = '-' || jsIsWhitespace c))

/-- `searchByArticle`: vector query at `topK = 100` for the article text, then
a scan of the matches for an equal `gtin` under three separator variants.  A
provider failure is caught and yields `none` (the `catch` returns `null`). -/
def searchByArticle (o : Oracle) (article : String) : Option SearchMatch :=
  match o.textQuery article 100 with
  | .error _ => none
  | .ok queryMatches =>
    let variants : List String :=
      [article,
       String.mk (article.toList.filter (· ≠ '-')),
       String.mk (article.toList.map fun c => if c = '-' then ' ' else c)]
    match variants.findSome? (fun variant =>
        queryMatches.find? fun m =>
          let productGtin := jsToUpper m.metadata.gtin
          let variantUpper := jsToUpper variant
          productGtin = variantUpper ||
            stripDashSpace productGtin = stripDashSpace variantUpper) with
    | some m => some ⟨m.id, 1, m.metadata⟩
    | none => none

/-- `searchRequiredBrandProducts`: two brand-filtered queries (Biotus, My
Nutri Week), merged, thresholded at score `> 0.2`, sorted by score descending,
cut to `limit`.  Any provider failure is caught and yields `[]`. -/
def searchRequiredBrandProducts (o : Oracle) (query : String) (limit : Nat) :
    List SearchMatch :=
  match o.brandQuery query "Biotus" limit, o.brandQuery query "My Nutri Week" limit with
  | .ok biotusMatches, .ok myNutriMatches =>
    let allMatches := biotusMatches ++ myNutriMatches
    let products := stableSortBy (fun a b => b.score ≤ a.score)
      (allMatches.filter fun m => m.score ≠ 0 && rat0_2 < m.score)
    products.take limit
  | _, _ => []

/-- The score-threshold filter of `searchProducts`: keep matches whose score
is truthy (`match.score &&` — a zero score is falsy) and at least
`minScore`. -/
def scoreThresholdFilter (minScore : Rat) (products : List SearchMatch) :
    List SearchMatch :=
  products.filter fun m => m.score ≠ 0 && minScore ≤ m.score

/-- The tier-1 brand-quota enforcement of `searchProducts` (its two `if`
branches on `hasRequiredBrand`): when no house-brand item is present, splice
the (at most one) result of the supplementary brand search in front of the
first `topK - 1` others; when more than one is present, collapse to the first
house item plus the non-house items; otherwise keep the top `topK`. -/
def applyBrandQuota (o : Oracle) (query : String) (topK : Nat)
    (sortedProducts : List SearchMatch) : List SearchMatch :=
  if !hasRequiredBrand sortedProducts then
    if (searchRequiredBrandProducts o query 1).length > 0 then
      searchRequiredBrandProducts o query 1 ++ sortedProducts.take (topK - 1)
    else
      sortedProducts.take topK
  else
    if (sortedProducts.filter fun p => hasRequiredBrand [p]).length > 1 then
      match sortedProducts.find? (fun p => hasRequiredBrand [p]) with
      | some ourBrandProduct =>
        (ourBrandProduct :: sortedProducts.filter fun p => !hasRequiredBrand [p]).take topK
      | none => sortedProducts.take topK
    else
      sortedProducts.take topK

/-- `searchProducts`: text query at `topK`, threshold at
`min(minSimilarityScore, 0.3)` (the truthiness test `match.score &&` excludes
a zero score), availability filter, brand-priority sort, then the tier-1
brand quota.  A provider failure of the query is rethrown as a turn error
(`'Не вдалося виконати пошук товарів'`).  (The source computes `topK - 1` on
JS numbers; every call site uses `topK ≥ 1`, matching the truncated
subtraction.) -/
def searchProducts (o : Oracle) (query : String) (config : SearchConfig) :
    Except TurnError VectorSearchResult :=
  match o.textQuery query config.topK with
  | .error _ => .error .searchFailed
  | .ok allMatches =>
    let minScore :=
      if config.minSimilarityScore ≤ rat0_3 then config.minSimilarityScore else rat0_3
    let sortedProducts :=
      sortProductsByRelevance (filterAvailableProducts (scoreThresholdFilter minScore allMatches))
    let finalProducts := applyBrandQuota o query config.topK sortedProducts
    .ok ⟨finalProducts, hasRequiredBrand finalProducts, finalProducts.length⟩

/-- `getPopularProducts`: the fixed broad query, `topK = limit`; a failure of
`searchProducts` is caught and yields `[]`. -/
def getPopularProducts (o : Oracle) (limit : Nat) : List SearchMatch :=
  match searchProducts o "вітаміни для здоров\u0027я та імунітету"
      ⟨limit, DEFAULT_SEARCH_CONFIG.minSimilarityScore⟩ with
  | .error _ => []
  | .ok result => result.products

/-- `BRAND_PRIORITY.own` (vectorSearch.ts) — exact brand names. -/
def BRAND_PRIORITY_own : List String := ["Biotus", "My Nutri Week"]

/-- `BRAND_PRIORITY.popular` (vectorSearch.ts) — exact brand names. -/
def BRAND_PRIORITY_popular : List String :=
  ["Now Foods", "Carlson Labs", "Doctor\u0027s Best", "Solgar", "Nature\u0027s Way",
   "Life Extension", "Thorne Research", "Nature\u0027s Plus", "Source Naturals",
   "Puritan\u0027s Pride", "Pure Encapsulations", "California Gold Nutrition",
   "Jarrow Formulas"]

/-- `getBrandPriority` of vectorSearch.ts: 3 = own, 2 = popular, 1 = the rest;
membership is exact (`Array.includes`), unlike the validation.ts
classifier. -/
def getBrandPriorityVS (brand : String) : Nat :=
  if BRAND_PRIORITY_own.contains brand then 3
  else if BRAND_PRIORITY_popular.contains brand then 2
  else 1

/-- `sortByBrandPriority`: brand priority descending, then score
descending. -/
def sortByBrandPriority (results : List SearchMatch) : List SearchMatch :=
  stableSortBy
    (fun a b =>
      let priorityA := getBrandPriorityVS a.metadata.brand
      let priorityB := getBrandPriorityVS b.metadata.brand
      if priorityA ≠ priorityB then priorityB < priorityA else b.score ≤ a.score)
    results

/-- `slice(0, n)` for a possibly negative JS index `n`. -/
def jsTake {α : Type} (n : Int) (l : List α) : List α :=
  if 0 ≤ n then l.take n.toNat else l.take (l.length - n.natAbs)

/-- `balanceResults`: at most one own-brand item, then popular brands, then
the rest, capped at `limit` (slot counts computed in JS `number` arithmetic,
hence the `Int` slots and `jsTake`). -/
def balanceResults (results : List SearchMatch) (limit : Nat) : List SearchMatch :=
  let ownBrand := results.filter fun r => BRAND_PRIORITY_own.contains r.metadata.brand
  let popularBrands := results.filter fun r => BRAND_PRIORITY_popular.contains r.metadata.brand
  let otherBrands := results.filter fun r =>
    !BRAND_PRIORITY_own.contains r.metadata.brand &&
    !BRAND_PRIORITY_popular.contains r.metadata.brand
  let balanced := ownBrand.take 1
  let remainingSlots : Int := (limit : Int) - balanced.length
  let popularToAdd : Int := min (popularBrands.length : Int) remainingSlots
  let balanced := balanced ++ jsTake popularToAdd popularBrands
  let stillRemaining : Int := (limit : Int) - balanced.length
  let balanced :=
    if 0 < stillRemaining then balanced ++ otherBrands.take stillRemaining.toNat
    else balanced
  balanced

/-- `findSimilarProductsByPrice`: query on `category_main ++ title` at
`topK = 5·limit`, keep candidates of the same main category, a different id,
price within ±30 % of the reference and `in_stock`, then brand-priority sort
and balanced composition.  A provider failure is caught and yields `[]`. -/
def findSimilarProductsByPrice (o : Oracle) (originalProduct : ProductMetadata)
    (limit : Nat) : List SearchMatch :=
  let priceMin := originalProduct.price * rat0_7
  let priceMax := originalProduct.price * rat1_3
  let searchQuery := originalProduct.category_main ++ " " ++ originalProduct.title
  match o.textQuery searchQuery (limit * 5) with
  | .error _ => []
  | .ok rawMatches =>
    if rawMatches.isEmpty then []
    else
      let allMatches := rawMatches.filter fun m =>
        let meta := m.metadata
        if meta.id = originalProduct.id then false
        else if meta.category_main ≠ originalProduct.category_main then false
        else if meta.price < priceMin || priceMax < meta.price then false
        else meta.availability = "in_stock"
      let sorted := sortByBrandPriority allMatches
      balanceResults sorted limit

/-! ## `src/services/chatbot.ts` — session store -/

/-- The in-memory conversation store (the JS `Map`, insertion-ordered). -/
abbrev Store : Type := List (String × ConversationHistory)

def storeGet (store : Store) (sessionId : String) : Option ConversationHistory :=
  (store.find? fun e => e.1 == sessionId).map (·.2)

def storeSet (store : Store) (sessionId : String) (conv : ConversationHistory) : Store :=
  if store.any (fun e => e.1 == sessionId) then
    store.map fun e => if e.1 == sessionId then (sessionId, conv) else e
  else store ++ [(sessionId, conv)]

def storeDelete (store : Store) (sessionId : String) : Store :=
  store.filter fun e => e.1 != sessionId

/-- `createSession`, with the generated `uuidv4()` passed in as
`sessionId` and `new Date()` as `now`. -/
def createSessionWith (now : Nat) (sessionId : String) (store : Store) : Store :=
  storeSet store sessionId ⟨sessionId, [], now, now, []⟩

/-- `slice(-n)` of an array (`slice(-0)` is the whole array). -/
def jsSliceLast {α : Type} (n : Nat) (l : List α) : List α :=
  if n = 0 then l else (l.reverse.take n).reverse

/-- `getConversationHistory`: the most recent `maxConversationHistory` turns;
empty for an unknown session. -/
def getConversationHistory (config : ChatbotConfig) (store : Store) (sessionId : String) :
    List ChatMessage :=
  match storeGet store sessionId with
  | none => []
  | some conversation => jsSliceLast config.maxConversationHistory conversation.messages

/-- `addMessageToHistory`: create the session if missing, append the turn,
update `lastUpdatedAt`, truncate the stored turns to `2 × maxConversationHistory`
(oldest first). -/
def addMessageToHistory (config : ChatbotConfig) (now : Nat) (sessionId : String)
    (role : ChatRole) (content : String) (store : Store) : Store :=
  let conversation := (storeGet store sessionId).getD ⟨sessionId, [], now, now, []⟩
  let messages := conversation.messages ++ [⟨role, content⟩]
  let messages :=
    if messages.length > config.maxConversationHistory * 2 then
      jsSliceLast (config.maxConversationHistory * 2) messages
    else messages
  storeSet store sessionId
    ⟨sessionId, messages, conversation.createdAt, now, conversation.shownProductIds⟩

/-- `deleteSession`: reject tokens failing the UUID-v4 check without touching
the store; otherwise `Map.delete` (returns whether the key existed). -/
def deleteSession (sessionId : String) (store : Store) : Bool × Store :=
  if !isValidSessionId sessionId then (false, store)
  else ((storeGet store sessionId).isSome, storeDelete store sessionId)

/-- `trackShownProducts`: add ids to the session's shown-set; no-op if the
session is missing. -/
def trackShownProducts (sessionId : String) (productIds : List String) (store : Store) :
    Store :=
  match storeGet store sessionId with
  | none => store
  | some conversation =>
    let shown := productIds.foldl
      (fun s i => if s.contains i then s else s ++ [i]) conversation.shownProductIds
    storeSet store sessionId
      ⟨conversation.sessionId, conversation.messages, conversation.createdAt,
       conversation.lastUpdatedAt, shown⟩

/-- `getShownProductIds`: the session's shown-set, or empty. -/
def getShownProductIds (sessionId : String) (store : Store) : List String :=
  ((storeGet store sessionId).map (·.shownProductIds)).getD []

/-- `filterNewProducts`: drop candidates whose id was already shown. -/
def filterNewProducts (products : List SearchMatch) (shownIds : List String) :
    List SearchMatch :=
  products.filter fun product => !shownIds.contains product.id

/-! ## `src/services/chatbot.ts` — intent resolution -/

/-- The greeting lexicon. -/
def greetingsList : List String :=
  ["привіт", "вітаю", "здрастуйте", "добрий день", "доброго дня", "добридень",
   "hi", "hello", "hey", "привет"]

/-- `isGreeting`: short message (< 50 UTF-16 units) containing a greeting
token. -/
def isGreeting (message : String) : Bool :=
  let lowerMessage := jsTrim (jsToLower message)
  jsLength lowerMessage < 50 &&
    greetingsList.any fun greeting => jsIncludes lowerMessage greeting

/-- `UserIntent`.  `searchType` is kept as the raw string of the (untyped)
JSON field, exactly as it flows into the dispatch `switch`. -/
structure UserIntent where
  searchType : String
  searchQuery : String
  context : String
  needsMultipleComponents : Bool
  deriving Repr, DecidableEq

/-- JS `value || fallback` on an optional string field (empty string is
falsy). -/
def jsStrOr (value : Option String) (fallback : String) : String :=
  match value with
  | some s => if s = "" then fallback else s
  | none => fallback

/-- JS `value || false` on an optional boolean field. -/
def jsBoolOrFalse (value : Option Bool) : Bool := value.getD false

/-- Characters of the class `[📦1-3️⃣]` of `extractProductFromHistory`,
read at code-point level (U+1F4E6, `1`–`3`, U+FE0F, U+20E3). -/
def emojiClassChar (c : Char) : Bool :=
  let n := c.toNat
  n = 0x1F4E6 || ('1' ≤ c && c ≤ '3') || n = 0xFE0F || n = 0x20E3

/-- `[^-\n]+` followed by a literal `-` at the head of `l`; returns the
capture. -/
def capByHyphen (l : List Char) : Option (List Char) :=
  let run := l.takeWhile fun c => c ≠ '-' && c ≠ '\n'
  if 1 ≤ run.length && l.get? run.length = some '-' then some run else none

/-- `\s*([^-\n]+)-` at the head of `l`: the greedy whitespace run backtracks
from longest to shortest. -/
def tryCapAfterWs (l : List Char) : Option (List Char) :=
  let wsMax := (l.takeWhile jsIsWhitespace).length
  (List.range (wsMax + 1)).reverse.findSome? fun w => capByHyphen (l.drop w)

/-- Leftmost match of the pattern `[📦1-3️⃣]\s*([^-\n]+)` followed by a
hyphen, returning capture group 1. -/
def productNameScan : List Char → Option (List Char)
  | [] => none
  | c :: rest =>
    (if emojiClassChar c then tryCapAfterWs rest else none).orElse
      fun _ => productNameScan rest

/-- `extractProductFromHistory`: emoji/number line pattern first, else the
first line containing `-` but neither `💰` nor `✅`, split at `-`. -/
def extractProductFromHistory (assistantMessage : String) : String :=
  match productNameScan assistantMessage.toList with
  | some productName => jsTrim (String.mk productName)
  | none =>
    let lines := assistantMessage.splitOn "\n"
    match lines.find? (fun line =>
        jsIncludes line "-" && !jsIncludes line "💰" && !jsIncludes line "✅") with
    | some line => jsTrim ((line.splitOn "-").headD "")
    | none => ""

/-- Keyword lexicons of `detectIntentFallback`. -/
def similarKeywords : List String :=
  ["аналог", "аналоги", "похож", "замена", "заменить", "вместо", "альтернатив",
   "ще варіант", "інші варіант", "що ще"]

def brandKeywordsList : List String :=
  ["бренд", "брендів", "від бренду", "фірм", "виробник", "компані", "компанії", "марк"]

def brandQuestionWords : List String :=
  ["а є", "а що є", "а є що", "можна", "покажи", "хочу", "є що", "дай", "а от",
   "а якщо", "що там", "може"]

/-- The alternation `/now foods|нау фудс|…/i` used both as a test and to
extract the mentioned brand. -/
def brandAlternatives : List String :=
  ["now foods", "нау фудс", "solgar", "солгар", "biotus", "біотус", "jarrow",
   "джарроу", "myprotein", "май протеїн", "my nutri week", "май нутрі",
   "21st century", "california gold", "каліфорнія"]

def continueKeywords : List String :=
  ["ще", "інші", "інше", "ще варіант", "другі", "додатков", "більше"]

def complexKeywords : List String := ["для ", "при ", "від ", "проти "]

/-- Leftmost, first-alternative match of a case-insensitive literal
alternation; returns the matched text in its original spelling
(`match(...)[0]`). -/
def jsAlternationScan (alternatives : List String) : List Char → Option String
  | [] => none
  | c :: rest =>
    match alternatives.findSome? (fun alt =>
        let a := alt.toList
        if (a.map jsToLowerChar).isPrefixOf ((c :: rest).map jsToLowerChar) then
          some (String.mk ((c :: rest).take a.length))
        else none) with
    | some m => some m
    | none => jsAlternationScan alternatives rest

/-- The `brandNormalization` lookup table (Ukrainian spellings to canonical
brand names). -/
def brandNormalization (brand : String) : Option String :=
  if brand = "нау фудс" then some "now foods"
  else if brand = "солгар" then some "solgar"
  else if brand = "біотус" then some "biotus"
  else if brand = "джарроу" then some "jarrow"
  else if brand = "май протеїн" then some "myprotein"
  else if brand = "май нутрі" then some "my nutri week"
  else if brand = "каліфорнія" then some "california gold"
  else none

/-- `userMessages[userMessages.length - 2]` (undefined when fewer than two
user turns exist — JS indexing with a negative index). -/
def penultimate {α : Type} (l : List α) : Option α :=
  if 2 ≤ l.length then l.get? (l.length - 2) else none

/-- `detectIntentFallback`: the rule-based resolver used when the
model-assisted classification fails or returns no JSON. -/
def detectIntentFallback (userMessage : String) (conversationHistory : List ChatMessage) :
    UserIntent :=
  let message := jsToLower userMessage
  match jsArticleMatch userMessage with
  | some articleCode => ⟨"article_search", articleCode, "Пошук по артикулу", false⟩
  | none =>
    let isSimilarRequest := similarKeywords.any fun keyword => jsIncludes message keyword
    let similarBranch : Option UserIntent :=
      if isSimilarRequest && conversationHistory.length > 0 then
        ((conversationHistory.filter fun m => m.role == ChatRole.assistant).getLast?).map
          fun lastAssistantMessage =>
            ⟨"find_similar", extractProductFromHistory lastAssistantMessage.content,
             "Пошук аналогів до попереднього товару", false⟩
      else none
    match similarBranch with
    | some intent => intent
    | none =>
      let hasBrandMention :=
        brandKeywordsList.any (fun keyword => jsIncludes message keyword) ||
        (jsAlternationScan brandAlternatives userMessage.toList).isSome
      let isBrandQuestion :=
        brandQuestionWords.any (fun w => jsIncludes message w) || jsIncludes message "?"
      let brandBranch : Option UserIntent :=
        if (hasBrandMention || isBrandQuestion) && conversationHistory.length > 0 then
          let userMessages := conversationHistory.filter fun m => m.role == ChatRole.user
          match penultimate userMessages with
          | some previousQuery =>
            if 5 < jsLength previousQuery.content then
              let extractedBrand :=
                (jsAlternationScan brandAlternatives userMessage.toList).getD ""
              let normalizedBrand :=
                (brandNormalization (jsToLower extractedBrand)).getD extractedBrand
              let combinedQuery :=
                if extractedBrand ≠ "" then previousQuery.content ++ " " ++ normalizedBrand
                else previousQuery.content
              some ⟨"recommendation", combinedQuery,
                "Уточнення з брендом до попереднього запиту: \"" ++
                  previousQuery.content ++ "\"", false⟩
            else none
          | none => none
        else none
      match brandBranch with
      | some intent => intent
      | none =>
        let isContinuation := continueKeywords.any fun keyword => jsIncludes message keyword
        let contBranch : Option UserIntent :=
          if isContinuation && conversationHistory.length > 0 then
            (penultimate (conversationHistory.filter fun m => m.role == ChatRole.user)).map
              fun previousQuery =>
                ⟨"recommendation", previousQuery.content,
                 "Продовження попереднього запиту", false⟩
          else none
        match contBranch with
        | some intent => intent
        | none =>
          let needsMultiple := complexKeywords.any fun keyword => jsIncludes message keyword
          ⟨"recommendation", userMessage, "Звичайний запит", needsMultiple⟩

/-- `analyzeUserIntentWithAI`: on a parsed JSON object, `isRelevant === false`
yields the fixed irrelevant marker; otherwise the fields are read with the
JS `||` defaults.  A provider failure, a reply without braces, or a JSON parse
error all fall back to `detectIntentFallback` (the `try`/`catch` encloses the
parse). -/
def analyzeUserIntentWithAI (userMessage : String) (conversationHistory : List ChatMessage)
    (reply : Except ProviderError IntentReply) : UserIntent :=
  match reply with
  | .error _ => detectIntentFallback userMessage conversationHistory
  | .ok IntentReply.noJson => detectIntentFallback userMessage conversationHistory
  | .ok IntentReply.malformed => detectIntentFallback userMessage conversationHistory
  | .ok (IntentReply.fields isRelevant searchType searchQuery context needsMultipleComponents) =>
    if isRelevant = some false then
      ⟨"recommendation", "", "нерелевантний запит", false⟩
    else
      ⟨jsStrOr searchType "recommendation", jsStrOr searchQuery userMessage,
       jsStrOr context "AI-аналіз", jsBoolOrFalse needsMultipleComponents⟩

/-! ## `src/services/chatbot.ts` — the turn orchestrator -/

/-- Modelled from the spec: the fixed welcome text (`WELCOME_MESSAGE` of
`src/utils/prompts.ts`, which is not among the provided sources; the spec fixes
only that it is a constant). -/
def WELCOME_MESSAGE : String := "Вітаю! Я консультант з вітамінів та добавок."

/-- Modelled from the spec: the fixed `no products found` text
(`NO_PRODUCTS_FOUND_MESSAGE` of `src/utils/prompts.ts`, not among the provided
sources; only its being a fixed constant matters). -/
def NO_PRODUCTS_FOUND_MESSAGE : String := "На жаль, товарів за запитом не знайдено."

/-- The fixed off-domain redirect text (an inline literal of
`processChatMessage`). -/
def OFF_DOMAIN_REDIRECT_MESSAGE : String :=
  "Вибачте, я спеціалізуюсь на консультаціях щодо вітамінів, мінералів та біологічно активних добавок. Чим можу допомогти у цій сфері?"

/-- The reason string of the off-domain redirect verdict. -/
def OFF_DOMAIN_REASON : String := "Запит не стосується здоров\u0027я та БАДів"

/-- Keep-first deduplication by id: the source's
`filter((product, index, self) => index === self.findIndex(p => p.id === product.id))`
retains exactly the first occurrence of every id, which this recursion
computes. -/
def dedupById (products : List SearchMatch) : List SearchMatch :=
  products.foldl
    (fun acc product => if acc.any (fun p => p.id == product.id) then acc else acc ++ [product])
    []

/-- The retrieval dispatch `switch` of `processChatMessage`: article lookup
(at most one result, provider errors swallowed by `searchByArticle`),
similar-item lookup (the reference via `searchProducts` at `topK = 1`, which
rethrows provider errors, then the price-window search, which swallows them),
or recommendation (text search at `topK` 9 or 6 with brand balancing above 3
results); any other tag falls through the `switch` with no products. -/
def dispatchSearch (o : Oracle) (intent : UserIntent) :
    Except TurnError (List SearchMatch) :=
  if intent.searchType = "article_search" then
    match searchByArticle o intent.searchQuery with
    | some articleProduct => .ok [articleProduct]
    | none => .ok []
  else if intent.searchType = "find_similar" then
    match searchProducts o intent.searchQuery
        ⟨1, DEFAULT_SEARCH_CONFIG.minSimilarityScore⟩ with
    | .error e => .error e
    | .ok originalSearchResult =>
      match originalSearchResult.products with
      | [] => .ok []
      | original :: _ => .ok (findSimilarProductsByPrice o original.metadata 5)
  else if intent.searchType = "recommendation" then
    match searchProducts o intent.searchQuery
        ⟨if intent.needsMultipleComponents then 9 else 6,
         DEFAULT_SEARCH_CONFIG.minSimilarityScore⟩ with
    | .error e => .error e
    | .ok searchResult =>
      .ok (if searchResult.products.length > 3 then
            balanceResults searchResult.products
              (if intent.needsMultipleComponents then 9 else 6)
           else searchResult.products)
  else .ok []

/-- The novelty filter and popular-products fallback ladder of
`processChatMessage`: drop already-shown candidates (skipped entirely for
article turns); when fewer than `minProductsRequired` survive on a turn that
is neither an article nor a similar-item lookup, merge the novelty-filtered
popular pool, deduplicate by id keeping first occurrences, and cap at 10. -/
def applyNoveltyAndFallback (config : ChatbotConfig) (o : Oracle) (intent : UserIntent)
    (shownProductIds : List String) (products₀ : List SearchMatch) : List SearchMatch :=
  let isArticleSearch := intent.searchType = "article_search"
  let isSimilarSearch := intent.searchType = "find_similar"
  let products :=
    if ¬isArticleSearch then filterNewProducts products₀ shownProductIds else products₀
  if products.length < config.minProductsRequired ∧ ¬isArticleSearch ∧ ¬isSimilarSearch then
    (dedupById (products ++
      filterNewProducts (getPopularProducts o 10) shownProductIds)).take 10
  else products

/-- The whole candidate computation of a turn (dispatch, novelty filter,
fallback ladder): its `.ok` value is the final candidate list handed to
generation. -/
def computeCandidates (config : ChatbotConfig) (o : Oracle) (intent : UserIntent)
    (shownProductIds : List String) : Except TurnError (List SearchMatch) :=
  match dispatchSearch o intent with
  | .error e => .error e
  | .ok products =>
    .ok (applyNoveltyAndFallback config o intent shownProductIds products)

/-- Dropping a prefix does not lengthen a list. -/
theorem listLengthDropWhileLe {α : Type} (p : α → Bool) (l : List α) :
    (l.dropWhile p).length ≤ l.length := by
  induction l with
  | nil => simp [List.dropWhile]
  | cons x xs ih =>
    simp only [List.dropWhile]
    split
    · exact le_trans ih (Nat.le_succ _)
    · exact Nat.le_refl _

/-- One global-replace pass deleting every occurrence of `fence` and the
greedy whitespace run after it (`\s*`), scanning left to right without
rescanning, case-insensitively (flag `i` of the triple-backtick-json pattern;
the letter-free second pattern is unaffected).  Each step consumes at least
one character, so fuel equal to the initial length makes the fuelled
recursion total and exact. -/
def removeFenceFuel (fence : List Char) : Nat → List Char → List Char
  | 0, l => l
  | _ + 1, [] => []
  | fuel + 1, c :: rest =>
    if (fence.map jsToLowerChar).isPrefixOf ((c :: rest).map jsToLowerChar) then
      removeFenceFuel fence fuel ((rest.drop (fence.length - 1)).dropWhile jsIsWhitespace)
    else c :: removeFenceFuel fence fuel rest

def removeFenceRuns (fence : List Char) (l : List Char) : List Char :=
  removeFenceFuel fence l.length l

/-- The markdown-fence cleaning of the generation output:
`replace("```json" ++ whitespace, "")` (case-insensitive, global), then
`replace("```" ++ whitespace, "")` (global), then `trim()`. -/
def cleanGenOutput (assistantResponse : String) : String :=
  jsTrim (String.mk (removeFenceRuns "```".toList
    (removeFenceRuns "```json".toList assistantResponse.toList)))

/-- Brace-depth walk of the balanced-JSON extraction: raw counting of `\x7b`
and `\x7d` (string literals are not understood, as in the source), stopping at
the first prefix on which the depth returns to zero. -/
def braceWalk (depth : Int) (acc : List Char) : List Char → Option (List Char)
  | [] => none
  | c :: rest =>
    let depth := if c = '{' then depth + 1 else depth
    let depth := if c = '}' then depth - 1 else depth
    if depth = 0 then some (c :: acc).reverse
    else braceWalk depth (c :: acc) rest

/-- The balanced-brace JSON extraction of `processChatMessage`: from the first
opening brace of the cleaned text, the prefix on which the brace depth returns
to zero. -/
def extractBalancedJson (cleaned : String) : Option String :=
  match cleaned.toList.dropWhile (· ≠ '{') with
  | [] => none
  | c :: rest => (braceWalk 0 [] (c :: rest)).map String.mk

/-- The response-parsing step of `processChatMessage`: clean markdown fences,
locate a balanced-brace JSON object, `JSON.parse` it (the oracle), and read
`message`/`products` with the JS truthiness defaults; `products` is truncated
to at most 3 entries.  Any failure degrades to the raw text with no structured
products; the step is a total function (never throws). -/
def parseGeneratedResponse (jsonParse : String → Option GenJson)
    (assistantResponse : String) : String × Option (List StructuredProduct) :=
  match extractBalancedJson (cleanGenOutput assistantResponse) with
  | none => (assistantResponse, none)
  | some jsonStr =>
    match jsonParse jsonStr with
    | none => (assistantResponse, none)
    | some parsedResponse =>
      match parsedResponse.products with
      | some products =>
        if products.length > 0 then
          (jsStrOr parsedResponse.message "Ось що я знайшов для вас:",
           some (products.take 3))
        else
          (jsStrOr parsedResponse.message assistantResponse, some products)
      | none => (jsStrOr parsedResponse.message assistantResponse, none)

/-- The tail of `processChatMessage` after intent resolution: candidate
computation, the empty-result short-circuit, generation, response parsing,
shown-id tracking, history update and the response envelope. -/
def continueTurn (config : ChatbotConfig) (o : Oracle) (now : Nat) (sessionId : String)
    (userMessage : String) (history : List ChatMessage) (intent : UserIntent)
    (relevanceCheck : RelevanceCheck) (store : Store) :
    Except TurnError (ChatResponse × Store) :=
  match computeCandidates config o intent (getShownProductIds sessionId store) with
  | .error e => .error e
  | .ok products =>
    if products.length = 0 then
      let store := addMessageToHistory config now sessionId ChatRole.user userMessage store
      let store := addMessageToHistory config now sessionId ChatRole.assistant
        NO_PRODUCTS_FOUND_MESSAGE store
      .ok (⟨NO_PRODUCTS_FOUND_MESSAGE, sessionId, 0, relevanceCheck, none⟩, store)
    else
      match o.genComplete userMessage products history with
      | .error e => .error (.generation e)
      | .ok assistantResponse =>
        let parsed := parseGeneratedResponse o.jsonParse assistantResponse
        let store := trackShownProducts sessionId (products.map (·.id)) store
        let store := addMessageToHistory config now sessionId ChatRole.user userMessage store
        let store := addMessageToHistory config now sessionId ChatRole.assistant parsed.1 store
        .ok (⟨parsed.1, sessionId, products.length, relevanceCheck, parsed.2⟩, store)

/-- `processChatMessage`: sanitize, resolve/validate the session, greeting
short-circuit, fast article path / model-assisted classification with the
off-domain redirect, then `continueTurn`.  `freshSessionId` stands for the
`uuidv4()` the source would generate, `now` for `new Date()`. -/
def processChatMessage (config : ChatbotConfig) (o : Oracle) (now : Nat)
    (freshSessionId : String) (request : ChatRequest) (store₀ : Store) :
    Except TurnError (ChatResponse × Store) :=
  let userMessage := sanitizeInput request.message
  if userMessage = "" then .error .emptyMessage
  else
    let sessionResolved : Except TurnError (String × Store) :=
      match request.sessionId with
      | none => .ok (freshSessionId, createSessionWith now freshSessionId store₀)
      | some s =>
        if s = "" then .ok (freshSessionId, createSessionWith now freshSessionId store₀)
        else if isValidSessionId s then .ok (s, store₀)
        else .error .invalidSessionId
    match sessionResolved with
    | .error e => .error e
    | .ok (sessionId, store) =>
      let history := getConversationHistory config store sessionId
      if history.length = 0 ∧ isGreeting userMessage then
        let store := addMessageToHistory config now sessionId ChatRole.user userMessage store
        let store := addMessageToHistory config now sessionId ChatRole.assistant
          WELCOME_MESSAGE store
        .ok (⟨WELCOME_MESSAGE, sessionId, 0, ⟨true, "Вітальне повідомлення"⟩, none⟩, store)
      else
        match jsArticleMatch userMessage with
        | some articleCode =>
          continueTurn config o now sessionId userMessage history
            ⟨"article_search", articleCode, "Пошук по артикулу", false⟩ ⟨true, ""⟩ store
        | none =>
          let intent := analyzeUserIntentWithAI userMessage history
            (o.intentComplete userMessage history)
          if !jsIncludes intent.context "релевантн" then
            continueTurn config o now sessionId userMessage history intent
              ⟨true, intent.context⟩ store
          else
            let store := addMessageToHistory config now sessionId ChatRole.user userMessage store
            let store := addMessageToHistory config now sessionId ChatRole.assistant
              OFF_DOMAIN_REDIRECT_MESSAGE store
            .ok (⟨OFF_DOMAIN_REDIRECT_MESSAGE, sessionId, 0, ⟨false, OFF_DOMAIN_REASON⟩, none⟩,
                 store)

/-! ## General list lemmas -/

theorem filter_pair_idem {α : Type} (p q : α → Bool) (l : List α) :
    (((l.filter q).filter p).filter q).filter p = (l.filter q).filter p := by
  simp only [List.filter_filter]
  exact List.filter_congr fun a _ => by cases p a <;> cases q a <;> rfl

theorem find?_filter_not {α : Type} (p : α → Bool) (l : List α) :
    (l.filter fun x => !p x).find? p = none := by
  induction l with
  | nil => rfl
  | cons x xs ih =>
    cases hx : p x <;> simp [List.filter_cons, hx, List.find?, ih]

/-! ## C10: idempotence of the composed availability/score filter -/

/-- **C10** — For every candidate list, the composition of the availability
filter with the score-threshold filter (as applied inside `searchProducts`) is
idempotent: applying the composed filter to its own output yields the same
output. -/
theorem availability_score_filter_idempotent (minScore : Rat)
    (products : List SearchMatch) :
    filterAvailableProducts (scoreThresholdFilter minScore
      (filterAvailableProducts (scoreThresholdFilter minScore products)))
    = filterAvailableProducts (scoreThresholdFilter minScore products) := by
  unfold filterAvailableProducts scoreThresholdFilter
  exact filter_pair_idem _ _ products

/-! ## C9: `deleteSession` -/

theorem storeGet_delete_self (store : Store) (sid : String) :
    storeGet (storeDelete store sid) sid = none := by
  unfold storeGet storeDelete
  rw [show (fun (e : String × ConversationHistory) => e.1 != sid)
        = (fun (e : String × ConversationHistory) => !(e.1 == sid)) from rfl]
  rw [find?_filter_not]
  rfl

/-- **C9** — `deleteSession(token)` returns `true` iff the token passes the
UUID-v4 format check and the session exists; in that case the session is
removed.  An invalid token leaves the store untouched, and a second delete of
the same token returns `false`. -/
theorem deleteSession_spec (sessionId : String) (store : Store) :
    ((deleteSession sessionId store).1 = true ↔
      isValidSessionId sessionId = true ∧ (storeGet store sessionId).isSome = true)
    ∧ (isValidSessionId sessionId = false → (deleteSession sessionId store).2 = store)
    ∧ ((deleteSession sessionId store).1 = true →
        storeGet (deleteSession sessionId store).2 sessionId = none)
    ∧ (deleteSession sessionId (deleteSession sessionId store).2).1 = false := by
  by_cases hv : isValidSessionId sessionId = true
  · simp [deleteSession, hv, storeGet_delete_self]
  · have hv' : isValidSessionId sessionId = false := by
      cases h : isValidSessionId sessionId
      · rfl
      · exact absurd h hv
    simp [deleteSession, hv']

/-- A well-formed UUID-v4 token for witnesses. -/
def demoUuid : String := "123e4567-e89b-42d3-a456-426614174000"

/-- An empty conversation under `demoUuid`. -/
def demoConv : ConversationHistory := ⟨demoUuid, [], 0, 0, []⟩

/-- Witness for C9: deleting an existing valid session returns `true`, then
`false`. -/
theorem deleteSession_spec_witness :
    (deleteSession demoUuid [(demoUuid, demoConv)]).1 = true
    ∧ (deleteSession demoUuid (deleteSession demoUuid [(demoUuid, demoConv)]).2).1 = false :=
  ⟨(deleteSession_spec demoUuid [(demoUuid, demoConv)]).1.mpr ⟨by decide, by decide⟩,
   (deleteSession_spec demoUuid [(demoUuid, demoConv)]).2.2.2⟩

/-! ## C4: the two brand-priority classifiers -/

/-- Demo metadata for concrete runs. -/
def mkDemoMeta (pid brand : String) : ProductMetadata :=
  ⟨pid, "in_stock", brand, [], "Вітаміни", "", "", "", "", "", 100, "UAH", "100 UAH",
   "", "Demo title"⟩

/-- Demo candidate for concrete runs. -/
def mkDemoMatch (pid : String) (score : Rat) (brand : String) : SearchMatch :=
  ⟨pid, score, mkDemoMeta pid brand⟩

/-- **C4, counterexample** — brand `"BIOTUS"` is tier 1 for the validation.ts
classifier (substring, case-insensitive) but *not* for the vectorSearch.ts
ranker functions, which match exactly: `getBrandPriorityVS` puts it in the
lowest tier (1 on its inverted scale, where 3 = house brand, cf.
`getBrandPriorityVS "Biotus" = 3`), `sortByBrandPriority` ranks it below a
tier-2 brand, and `balanceResults` drops it in favour of a tier-2 brand. -/
theorem brand_priority_counterexample :
    getBrandPriorityValidation "BIOTUS" = 1
    ∧ getBrandPriorityValidation "biotus ukraine" = 1
    ∧ getBrandPriorityVS "BIOTUS" = 1
    ∧ getBrandPriorityVS "biotus ukraine" = 1
    ∧ getBrandPriorityVS "Biotus" = 3
    ∧ sortByBrandPriority [mkDemoMatch "a" 1 "BIOTUS", mkDemoMatch "b" 0 "Now Foods"]
        = [mkDemoMatch "b" 0 "Now Foods", mkDemoMatch "a" 1 "BIOTUS"]
    ∧ balanceResults [mkDemoMatch "a" 1 "BIOTUS", mkDemoMatch "b" 0 "Now Foods"] 1
        = [mkDemoMatch "b" 0 "Now Foods"] := by
  refine ⟨by decide, by decide, by decide, by decide, by decide, by decide, by decide⟩

/-- **C4, amended** — the classifier of validation.ts (used by
`sortProductsByRelevance`) assigns tier 1 by substring, case-insensitive match
of the house brands and tier 2 by substring match of the fixed premium-brand
list; the classifier of vectorSearch.ts (used by `sortByBrandPriority` and, as
list partitions, by `balanceResults`) instead matches by exact membership of
the fixed `BRAND_PRIORITY` lists. -/
theorem brand_priority_classifiers (brand : String) :
    (getBrandPriorityValidation brand = 1 ↔
      (jsIncludes (jsToLower brand) "biotus" = true ∨
       jsIncludes (jsToLower brand) "my nutri week" = true))
    ∧ (getBrandPriorityValidation brand = 2 ↔
      (¬(jsIncludes (jsToLower brand) "biotus" = true ∨
         jsIncludes (jsToLower brand) "my nutri week" = true)
       ∧ (KNOWN_PREMIUM_BRANDS.any fun b => jsIncludes (jsToLower brand) b) = true))
    ∧ (getBrandPriorityVS brand = 3 ↔ BRAND_PRIORITY_own.contains brand = true)
    ∧ (getBrandPriorityVS brand = 2 ↔
        (BRAND_PRIORITY_own.contains brand = false ∧
         BRAND_PRIORITY_popular.contains brand = true)) := by
  simp only [getBrandPriorityValidation, getBrandPriorityVS]
  refine ⟨?_, ?_, ?_, ?_⟩ <;> split_ifs <;> simp_all [Bool.or_eq_true]

/-! ## C8: graceful parsing of the generation output -/

/-- **C8** — the response-parsing step of `processChatMessage` is a total
function of the model text (never throws) with: a `products` array, when
present, truncated to at most 3 entries; no balanced-brace object, or a
`JSON.parse` failure, degrading to the raw text with `products = none`; and a
(truthy) `message` field becoming the response text whenever the object
parses. -/
theorem generation_parse_graceful (jsonParse : String → Option GenJson) (raw : String) :
    (∀ r ps, parseGeneratedResponse jsonParse raw = (r, some ps) → ps.length ≤ 3)
    ∧ (extractBalancedJson (cleanGenOutput raw) = none →
        parseGeneratedResponse jsonParse raw = (raw, none))
    ∧ (∀ jsonStr, extractBalancedJson (cleanGenOutput raw) = some jsonStr →
        jsonParse jsonStr = none →
        parseGeneratedResponse jsonParse raw = (raw, none))
    ∧ (∀ jsonStr obj m, extractBalancedJson (cleanGenOutput raw) = some jsonStr →
        jsonParse jsonStr = some obj → obj.message = some m → m ≠ "" →
        (parseGeneratedResponse jsonParse raw).1 = m) := by
  refine ⟨?_, ?_, ?_, ?_⟩
  · intro r ps h
    unfold parseGeneratedResponse at h
    split at h
    · simp at h
    · split at h
      · simp at h
      · split at h
        · split at h
          · simp only [Prod.mk.injEq] at h
            obtain ⟨-, h2⟩ := h
            cases h2
            exact List.length_take_le 3 _
          · next hlen =>
            simp only [Prod.mk.injEq] at h
            obtain ⟨-, h2⟩ := h
            cases h2
            omega
        · simp at h
  · intro hex
    unfold parseGeneratedResponse
    simp only [hex]
  · intro jsonStr hex hjp
    unfold parseGeneratedResponse
    simp only [hex, hjp]
  · intro jsonStr obj m hex hjp hm hmne
    unfold parseGeneratedResponse
    simp only [hex, hjp]
    rcases hpr : obj.products with _ | ps' <;> simp only [hpr]
    · simp [jsStrOr, hm, hmne]
    · split_ifs <;> simp [jsStrOr, hm, hmne]

/-- A demo structured product. -/
def demoSP (n : String) : StructuredProduct := ⟨n, "", "", "", "", "", "", ""⟩

/-- A demo parsed generation object with four products. -/
def demoGenJson : GenJson :=
  ⟨some "Ось відповідь", some [demoSP "a", demoSP "b", demoSP "c", demoSP "d"]⟩

/-- A demo `JSON.parse` oracle. -/
def demoJsonParse : String → Option GenJson :=
  fun s => if s = "{x}" then some demoGenJson else none

/-- Witness for C8: a parsed object with a message and four products yields
the message as response text and the products truncated to three. -/
theorem generation_parse_graceful_witness :
    (parseGeneratedResponse demoJsonParse "{x}").1 = "Ось відповідь"
    ∧ (parseGeneratedResponse demoJsonParse "{x}").2
        = some [demoSP "a", demoSP "b", demoSP "c"]
    ∧ ([demoSP "a", demoSP "b", demoSP "c"] : List StructuredProduct).length ≤ 3 :=
  ⟨(generation_parse_graceful demoJsonParse "{x}").2.2.2 "{x}" demoGenJson "Ось відповідь"
      (by decide) (by decide) rfl (by decide),
   by decide,
   (generation_parse_graceful demoJsonParse "{x}").1 "Ось відповідь"
      [demoSP "a", demoSP "b", demoSP "c"] (by decide)⟩

/-! ## C7: session history ordering and cap -/

/-- The last `n` elements of a list, in order. -/
def takeLast {α : Type} (n : Nat) (l : List α) : List α := (l.reverse.take n).reverse

theorem takeLast_length_le {α : Type} (n : Nat) (l : List α) :
    (takeLast n l).length ≤ n := by
  simp only [takeLast, List.length_reverse, List.length_take]
  omega

theorem takeLast_of_length_le {α : Type} (n : Nat) (l : List α) (h : l.length ≤ n) :
    takeLast n l = l := by
  unfold takeLast
  rw [List.take_of_length_le (by simpa using h), List.reverse_reverse]

theorem jsSliceLast_eq_takeLast {α : Type} (n : Nat) (h : n ≠ 0) (l : List α) :
    jsSliceLast n l = takeLast n l := by
  simp [jsSliceLast, takeLast, h]

theorem takeLast_takeLast_append {α : Type} (m k : Nat) (h : m ≤ k) (xs ys : List α) :
    takeLast m (takeLast k xs ++ ys) = takeLast m (xs ++ ys) := by
  unfold takeLast
  rw [List.reverse_append, List.reverse_reverse, List.reverse_append]
  congr 1
  rw [List.take_append_eq_append_take, List.take_append_eq_append_take, List.take_take]
  have hk : m - ys.reverse.length ≤ k := le_trans (Nat.sub_le m _) h
  rw [Nat.min_eq_left hk]

theorem find?_map_replace (sid : String) (conv : ConversationHistory) :
    ∀ l : Store, l.any (fun e => e.1 == sid) = true →
    ((l.map fun e => if e.1 == sid then (sid, conv) else e).find? fun e => e.1 == sid)
      = some (sid, conv) := by
  intro l
  induction l with
  | nil => intro h; simp at h
  | cons e rest ih =>
    intro h
    cases he : (e.1 == sid) with
    | true => simp [List.map_cons, he, List.find?]
    | false =>
      have h' : rest.any (fun e => e.1 == sid) = true := by
        simpa [List.any_cons, he] using h
      rw [List.map_cons, if_neg (by simp [he])]
      rw [List.find?_cons_of_neg _ (by simp [he])]
      exact ih h'

theorem find?_append_miss (sid : String) (conv : ConversationHistory) :
    ∀ l : Store, l.any (fun e => e.1 == sid) = false →
    ((l ++ [(sid, conv)]).find? fun e => e.1 == sid) = some (sid, conv) := by
  intro l
  induction l with
  | nil => intro _; simp [List.find?]
  | cons e rest ih =>
    intro h
    have he : (e.1 == sid) = false := by
      cases hb : (e.1 == sid)
      · rfl
      · simp [List.any_cons, hb] at h
    have h' : rest.any (fun x => x.1 == sid) = false := by
      simpa [List.any_cons, he] using h
    simp [List.find?, he, ih h']

theorem storeGet_set_self (store : Store) (sid : String) (conv : ConversationHistory) :
    storeGet (storeSet store sid conv) sid = some conv := by
  unfold storeSet
  cases hany : store.any (fun e => e.1 == sid) with
  | false =>
    rw [if_neg (by simp)]
    unfold storeGet
    rw [find?_append_miss sid conv store hany]
    rfl
  | true =>
    rw [if_pos rfl]
    unfold storeGet
    rw [find?_map_replace sid conv store hany]
    rfl

/-- A sequence of turns appended through `addMessageToHistory`. -/
def appendTurns (config : ChatbotConfig) (now : Nat) (sid : String)
    (turns : List ChatMessage) (store : Store) : Store :=
  turns.foldl (fun st t => addMessageToHistory config now sid t.role t.content st) store

/-- The stored message list of a session (empty when the session is absent). -/
def messagesOf (store : Store) (sid : String) : List ChatMessage :=
  ((storeGet store sid).map (·.messages)).getD []

theorem messagesOf_addMessage (config : ChatbotConfig)
    (hN : config.maxConversationHistory ≠ 0) (now : Nat) (sid : String)
    (role : ChatRole) (content : String) (store : Store) :
    messagesOf (addMessageToHistory config now sid role content store) sid
      = takeLast (config.maxConversationHistory * 2)
          (messagesOf store sid ++ [⟨role, content⟩]) := by
  unfold addMessageToHistory
  have h2N : config.maxConversationHistory * 2 ≠ 0 := by omega
  rcases hs : storeGet store sid with _ | conv
  · simp only [hs, Option.getD_none]
    unfold messagesOf
    rw [storeGet_set_self]
    simp only [Option.map_some', Option.getD_some, hs, Option.map_none', Option.getD_none,
      List.nil_append]
    split
    · next hlen => rw [jsSliceLast_eq_takeLast _ h2N]
    · next hlen => rw [takeLast_of_length_le _ _ (by omega)]
  · simp only [hs, Option.getD_some]
    unfold messagesOf
    rw [storeGet_set_self]
    simp only [Option.map_some', Option.getD_some, hs]
    split
    · next hlen => rw [jsSliceLast_eq_takeLast _ h2N]
    · next hlen => rw [takeLast_of_length_le _ _ (by omega)]

theorem appendTurns_takeLast (config : ChatbotConfig)
    (hN : config.maxConversationHistory ≠ 0) (now : Nat) (sid : String)
    (m : Nat) (hm : m ≤ config.maxConversationHistory * 2) :
    ∀ (turns : List ChatMessage) (store : Store),
    takeLast m (messagesOf (appendTurns config now sid turns store) sid)
      = takeLast m (messagesOf store sid ++ turns) := by
  intro turns
  induction turns with
  | nil => intro store; simp [appendTurns]
  | cons t ts ih =>
    intro store
    have step : appendTurns config now sid (t :: ts) store
        = appendTurns config now sid ts
            (addMessageToHistory config now sid t.role t.content store) := rfl
    rw [step, ih, messagesOf_addMessage config hN,
      takeLast_takeLast_append m (config.maxConversationHistory * 2) hm,
      show (⟨t.role, t.content⟩ : ChatMessage) = t from rfl, List.append_assoc,
      List.singleton_append]

/-- **C7** — for every session and every sequence of appended turns,
`getConversationHistory` returns exactly the most recent
`maxConversationHistory` turns of the full appended sequence, in insertion
order with the most recent last, and its length never exceeds the stored
`2 × maxConversationHistory` cap. -/
theorem history_append_spec (config : ChatbotConfig)
    (hN : config.maxConversationHistory ≠ 0) (now : Nat) (sid : String)
    (turns : List ChatMessage) (store : Store) :
    getConversationHistory config (appendTurns config now sid turns store) sid
      = takeLast config.maxConversationHistory (messagesOf store sid ++ turns)
    ∧ (getConversationHistory config (appendTurns config now sid turns store) sid).length
        ≤ config.maxConversationHistory * 2 := by
  have hfold := appendTurns_takeLast config hN now sid config.maxConversationHistory
    (by omega) turns store
  have key : getConversationHistory config (appendTurns config now sid turns store) sid
      = takeLast config.maxConversationHistory (messagesOf store sid ++ turns) := by
    rcases hs : storeGet (appendTurns config now sid turns store) sid with _ | conv
    · unfold getConversationHistory
      rw [hs, ← hfold]
      unfold messagesOf
      rw [hs]
      simp [takeLast]
    · unfold getConversationHistory
      simp only [hs]
      rw [jsSliceLast_eq_takeLast _ hN, ← hfold]
      unfold messagesOf
      rw [hs]
      rfl
  refine ⟨key, ?_⟩
  rw [key]
  exact le_trans (takeLast_length_le _ _) (by omega)

/-- Witness for C7: two turns appended to a fresh session come back in order,
within the cap. -/
theorem history_append_spec_witness :
    getConversationHistory CHATBOT_CONFIG
        (appendTurns CHATBOT_CONFIG 0 "s"
          [⟨ChatRole.user, "q"⟩, ⟨ChatRole.assistant, "a"⟩] []) "s"
      = [⟨ChatRole.user, "q"⟩, ⟨ChatRole.assistant, "a"⟩]
    ∧ ([⟨ChatRole.user, "q"⟩, ⟨ChatRole.assistant, "a"⟩] : List ChatMessage).length
        ≤ CHATBOT_CONFIG.maxConversationHistory * 2 := by
  have h := history_append_spec CHATBOT_CONFIG (by decide) 0 "s"
    [⟨ChatRole.user, "q"⟩, ⟨ChatRole.assistant, "a"⟩] []
  refine ⟨?_, by decide⟩
  rw [h.1]
  decide

/-! ## C2: the deterministic article fast path -/

/-- The per-turn intent resolution of `processChatMessage` after the greeting
check: the deterministic article pattern short-circuits with the matched token
as query; otherwise the model-assisted classification (with its deterministic
fallback) runs on the oracle's reply. -/
def resolveIntent (userMessage : String) (history : List ChatMessage)
    (reply : Except ProviderError IntentReply) : UserIntent :=
  match jsArticleMatch userMessage with
  | some articleCode => ⟨"article_search", articleCode, "Пошук по артикулу", false⟩
  | none => analyzeUserIntentWithAI userMessage history reply

/-- A token of the spec's article-code shape: 2–4 letters, an **optional**
separator (hyphen or space), 4–6 digits.  This follows the specification's
words (and the `extractArticleFromQuery` pattern `[A-Z]{2,4}[-\s]?\d{4,6}` of
vectorSearch.ts, which the chatbot pipeline never calls). -/
def specArticleToken (token : List Char) : Prop :=
  ∃ letters sep digits,
    token = letters ++ sep ++ digits ∧
    2 ≤ letters.length ∧ letters.length ≤ 4 ∧ letters.all isAsciiLetterChar = true ∧
    (sep = [] ∨ sep = ['-'] ∨ sep = [' ']) ∧
    4 ≤ digits.length ∧ digits.length ≤ 6 ∧ digits.all isDigitChar = true

/-- A token of the fast-path pattern's shape: 2–4 letters, a **mandatory**
hyphen, 4–6 digits. -/
def hyphenArticleToken (token : List Char) : Prop :=
  ∃ letters digits,
    token = letters ++ '-' :: digits ∧
    2 ≤ letters.length ∧ letters.length ≤ 4 ∧ letters.all isAsciiLetterChar = true ∧
    4 ≤ digits.length ∧ digits.length ≤ 6 ∧ digits.all isDigitChar = true

/-- The message contains a token of the given shape. -/
def containsToken (s : String) (shape : List Char → Prop) : Prop :=
  ∃ pre token post, s.toList = pre ++ token ++ post ∧ shape token

theorem takeWhile_append_all {α : Type} (p : α → Bool) (l r : List α)
    (h : l.all p = true) : (l ++ r).takeWhile p = l ++ r.takeWhile p := by
  induction l with
  | nil => rfl
  | cons x xs ih =>
    simp only [List.all_cons, Bool.and_eq_true] at h
    simp [List.takeWhile, h.1, ih h.2]

theorem all_take {α : Type} (p : α → Bool) (n : Nat) (l : List α)
    (h : l.all p = true) : (l.take n).all p = true := by
  rw [List.all_eq_true] at *
  intro x hx
  exact h x (List.mem_of_mem_take hx)

theorem all_takeWhile' {α : Type} (p : α → Bool) (l : List α) :
    (l.takeWhile p).all p = true := by
  induction l with
  | nil => rfl
  | cons x xs ih =>
    cases hx : p x <;> simp [List.takeWhile, hx, ih]

theorem tryArticleK_shape (l : List Char) (k : Nat) (a : List Char)
    (h : tryArticleK l k = some a) (h2 : 2 ≤ k) (h4 : k ≤ 4) :
    hyphenArticleToken a := by
  unfold tryArticleK at h
  split at h
  · next hcond =>
    split at h
    · next hd =>
      injection h with h
      subst h
      simp only [Bool.and_eq_true, decide_eq_true_eq] at hcond
      obtain ⟨⟨hlen, hall⟩, -⟩ := hcond
      refine ⟨l.take k, ((l.drop (k + 1)).takeWhile isDigitChar).take 6, rfl,
        ?_, ?_, hall, ?_, ?_, ?_⟩
      · omega
      · omega
      · have := List.length_take 6 ((l.drop (k + 1)).takeWhile isDigitChar)
        omega
      · have := List.length_take 6 ((l.drop (k + 1)).takeWhile isDigitChar)
        omega
      · exact all_take _ _ _ (all_takeWhile' _ _)
    · exact absurd h (by simp)
  · exact absurd h (by simp)

theorem tryArticleK_isSome_of_token (letters digits post : List Char)
    (hall : letters.all isAsciiLetterChar = true)
    (hd4 : 4 ≤ digits.length) (hdall : digits.all isDigitChar = true) :
    (tryArticleK (letters ++ '-' :: (digits ++ post)) letters.length).isSome = true := by
  have htake : (letters ++ '-' :: (digits ++ post)).take letters.length = letters :=
    List.take_left _ _
  have hget : (letters ++ '-' :: (digits ++ post)).get? letters.length = some '-' := by
    rw [List.get?_eq_getElem?, List.getElem?_append_right (le_refl _)]
    simp
  have hdrop : (letters ++ '-' :: (digits ++ post)).drop (letters.length + 1)
      = digits ++ post := by
    rw [show letters ++ '-' :: (digits ++ post) = (letters ++ ['-']) ++ (digits ++ post) by
      simp]
    rw [show letters.length + 1 = (letters ++ ['-']).length by simp]
    exact List.drop_left _ _
  unfold tryArticleK
  rw [htake, hget, hdrop, takeWhile_append_all _ _ _ hdall]
  rw [if_pos (by simp [hall])]
  rw [if_pos (by simp; omega)]
  rfl

theorem tryArticleHere_shape (l a : List Char) (h : tryArticleHere l = some a) :
    hyphenArticleToken a := by
  unfold tryArticleHere at h
  rcases h4 : tryArticleK l 4 with _ | b
  · rw [h4] at h
    rcases h3 : tryArticleK l 3 with _ | b
    · rw [h3] at h
      simp only [Option.orElse] at h
      exact tryArticleK_shape l 2 a h (by omega) (by omega)
    · rw [h3] at h
      simp only [Option.orElse] at h
      injection h with h
      exact h ▸ tryArticleK_shape l 3 b h3 (by omega) (by omega)
  · rw [h4] at h
    simp only [Option.orElse] at h
    injection h with h
    exact h ▸ tryArticleK_shape l 4 b h4 (by omega) (by omega)

theorem tryArticleHere_isSome_of (l : List Char) (k : Nat)
    (hk : k = 2 ∨ k = 3 ∨ k = 4) (h : (tryArticleK l k).isSome = true) :
    (tryArticleHere l).isSome = true := by
  unfold tryArticleHere
  rcases h4 : tryArticleK l 4 with _ | b
  · rcases h3 : tryArticleK l 3 with _ | b
    · simp only [h4, h3, Option.orElse, Option.isSome]
      rcases hk with rfl | rfl | rfl
      · exact h
      · rw [h3] at h; simp at h
      · rw [h4] at h; simp at h
    · simp [h4, h3, Option.orElse]
  · simp [h4, Option.orElse]

theorem jsArticleScan_shape (l a : List Char) (h : jsArticleScan l = some a) :
    hyphenArticleToken a := by
  induction l with
  | nil => simp [jsArticleScan] at h
  | cons c rest ih =>
    rw [jsArticleScan] at h
    rcases hh : tryArticleHere (c :: rest) with _ | b
    · rw [hh] at h
      simp only [Option.orElse] at h
      exact ih h
    · rw [hh] at h
      simp only [Option.orElse] at h
      injection h with h
      exact h ▸ tryArticleHere_shape _ b hh

theorem jsArticleScan_isSome_append (pre rest : List Char)
    (h : (tryArticleHere rest).isSome = true) (hne : rest ≠ []) :
    (jsArticleScan (pre ++ rest)).isSome = true := by
  induction pre with
  | nil =>
    cases rest with
    | nil => exact absurd rfl hne
    | cons c r =>
      rw [List.nil_append, jsArticleScan]
      rcases ht : tryArticleHere (c :: r) with _ | b
      · rw [ht] at h; simp at h
      · simp [Option.orElse, ht]
  | cons x xs ih =>
    rw [List.cons_append, jsArticleScan]
    rcases ht : tryArticleHere (x :: (xs ++ rest)) with _ | b
    · simpa [Option.orElse, ht] using ih
    · simp [Option.orElse, ht]

/-- **C2, counterexample** — the message `"SOL01701"` contains a token of the
spec's shape (separator omitted), but the fast path's pattern requires the
hyphen: the resolver does not classify the turn as `article_search` (shown
both for a failing model call, which lands in `detectIntentFallback`, and for
a model reply classifying it as a recommendation). -/
theorem article_fast_path_counterexample :
    containsToken "SOL01701" specArticleToken
    ∧ jsArticleMatch "SOL01701" = none
    ∧ (resolveIntent "SOL01701" [] (Except.error ⟨"unavailable"⟩)).searchType
        = "recommendation"
    ∧ (resolveIntent "SOL01701" []
        (Except.ok (IntentReply.fields none (some "recommendation") (some "SOL01701")
          (some "пошук товару") none))).searchType = "recommendation" :=
  ⟨⟨[], "SOL01701".toList, [],
    by decide,
    "SOL".toList, [], "01701".toList,
    by decide, by decide, by decide, by decide, Or.inl rfl, by decide, by decide, by decide⟩,
   by decide, by decide, by decide⟩

/-- **C2, amended** — for every incoming message containing a token of the
fast-path shape (2–4 letters, a **hyphen**, 4–6 digits), the resolver
classifies the turn as `article_search` with the pattern's leftmost match (a
well-formed hyphenated token) as the query, for every history and every model
reply — i.e. without calling the language model and independently of the
session's history. -/
theorem article_fast_path_amended (userMessage : String)
    (h : containsToken userMessage hyphenArticleToken) :
    ∃ articleCode,
      jsArticleMatch userMessage = some articleCode
      ∧ hyphenArticleToken articleCode.toList
      ∧ ∀ (history : List ChatMessage) (reply : Except ProviderError IntentReply),
          resolveIntent userMessage history reply
            = ⟨"article_search", articleCode, "Пошук по артикулу", false⟩ := by
  obtain ⟨pre, token, post, heq, letters, digits, htok, h2, h4, hl, hd4, hd6, hdall⟩ := h
  have hsome : (jsArticleScan userMessage.toList).isSome = true := by
    rw [heq, htok]
    rw [show pre ++ (letters ++ '-' :: digits) ++ post
          = pre ++ (letters ++ '-' :: (digits ++ post)) by simp]
    apply jsArticleScan_isSome_append
    · exact tryArticleHere_isSome_of _ letters.length (by omega)
        (tryArticleK_isSome_of_token letters digits post hl hd4 hdall)
    · intro hcontra
      have : letters.length = 0 := by
        have := congrArg List.length hcontra
        simp at this
      omega
  rcases hscan : jsArticleScan userMessage.toList with _ | chars
  · rw [hscan] at hsome; simp at hsome
  · refine ⟨String.mk chars, ?_, ?_, ?_⟩
    · unfold jsArticleMatch
      rw [hscan]
      rfl
    · exact jsArticleScan_shape _ chars hscan
    · intro history reply
      unfold resolveIntent
      have hm : jsArticleMatch userMessage = some (String.mk chars) := by
        unfold jsArticleMatch
        rw [hscan]
        rfl
      rw [hm]

/-- Witness for the amended C2: `"SOL-01701"` resolves to `article_search`
with itself as the query even when the model oracle fails. -/
theorem article_fast_path_amended_witness :
    resolveIntent "SOL-01701" [] (Except.error ⟨"unavailable"⟩)
      = ⟨"article_search", "SOL-01701", "Пошук по артикулу", false⟩ := by
  obtain ⟨a, ha, -, hall⟩ := article_fast_path_amended "SOL-01701"
    ⟨[], "SOL-01701".toList, [], by decide,
     "SOL".toList, "01701".toList, by decide, by decide, by decide, by decide,
     by decide, by decide, by decide⟩
  have hm : jsArticleMatch "SOL-01701" = some "SOL-01701" := by decide
  rw [hm] at ha
  injection ha with ha
  subst ha
  exact hall [] (Except.error ⟨"unavailable"⟩)

/-! ## C3 / C6: machinery about the ranking pipeline -/

theorem hasRequiredBrand_cons (x : SearchMatch) (xs : List SearchMatch) :
    hasRequiredBrand (x :: xs) = (hasRequiredBrand [x] || hasRequiredBrand xs) := by
  simp [hasRequiredBrand, List.any_cons]

theorem hasRequiredBrand_eq_any (l : List SearchMatch) :
    hasRequiredBrand l = l.any fun p => hasRequiredBrand [p] := by
  induction l with
  | nil => rfl
  | cons x xs ih => rw [hasRequiredBrand_cons, List.any_cons, ih]

theorem searchRequiredBrandProducts_length_le (o : Oracle) (query : String) (limit : Nat) :
    (searchRequiredBrandProducts o query limit).length ≤ limit := by
  unfold searchRequiredBrandProducts
  rcases o.brandQuery query "Biotus" limit with e | a <;>
    rcases o.brandQuery query "My Nutri Week" limit with e2 | b <;>
    simp [List.length_take]

theorem dedupById_foldl_mem :
    ∀ (l acc : List SearchMatch) (m : SearchMatch),
    m ∈ l.foldl (fun acc product =>
      if acc.any (fun p => p.id == product.id) then acc else acc ++ [product]) acc →
    m ∈ acc ∨ m ∈ l := by
  intro l
  induction l with
  | nil => intro acc m h; exact Or.inl h
  | cons x xs ih =>
    intro acc m h
    simp only [List.foldl_cons] at h
    rcases ih _ m h with hacc | hxs
    · by_cases hx : acc.any (fun p => p.id == x.id) = true
      · rw [if_pos hx] at hacc
        exact Or.inl hacc
      · rw [if_neg hx] at hacc
        rcases List.mem_append.mp hacc with h1 | h2
        · exact Or.inl h1
        · simp only [List.mem_singleton] at h2
          exact Or.inr (h2 ▸ List.mem_cons_self x xs)
    · exact Or.inr (List.mem_cons_of_mem _ hxs)

theorem dedupById_mem (l : List SearchMatch) (m : SearchMatch)
    (h : m ∈ dedupById l) : m ∈ l := by
  rcases dedupById_foldl_mem l [] m h with hc | hc
  · simp at hc
  · exact hc

theorem dedupById_foldl_countP (q : SearchMatch → Bool) :
    ∀ (l acc : List SearchMatch),
    (l.foldl (fun acc product =>
      if acc.any (fun p => p.id == product.id) then acc else acc ++ [product]) acc).countP q
    ≤ acc.countP q + l.countP q := by
  intro l
  induction l with
  | nil => intro acc; simp
  | cons x xs ih =>
    intro acc
    simp only [List.foldl_cons]
    refine le_trans (ih _) ?_
    by_cases hx : acc.any (fun p => p.id == x.id) = true
    · rw [if_pos hx, List.countP_cons]
      omega
    · rw [if_neg hx, List.countP_append, List.countP_cons]
      simp [List.countP_cons]
      omega

theorem dedupById_countP_le (q : SearchMatch → Bool) (l : List SearchMatch) :
    (dedupById l).countP q ≤ l.countP q := by
  have := dedupById_foldl_countP q l []
  simpa [dedupById] using this

theorem jsTake_sublist {α : Type} (n : Int) (l : List α) : (jsTake n l).Sublist l := by
  unfold jsTake
  split <;> exact List.take_sublist _ _

theorem brand_partition_countP (q : SearchMatch → Bool) (results : List SearchMatch) :
    (results.filter fun r => BRAND_PRIORITY_own.contains r.metadata.brand).countP q
    + (results.filter fun r => BRAND_PRIORITY_popular.contains r.metadata.brand).countP q
    + (results.filter fun r =>
        !BRAND_PRIORITY_own.contains r.metadata.brand &&
        !BRAND_PRIORITY_popular.contains r.metadata.brand).countP q
    = results.countP q := by
  induction results with
  | nil => rfl
  | cons x xs ih =>
    by_cases h1 : BRAND_PRIORITY_own.contains x.metadata.brand = true
    · have h2 : BRAND_PRIORITY_popular.contains x.metadata.brand = false := by
        have hmem : x.metadata.brand = "Biotus" ∨ x.metadata.brand = "My Nutri Week" := by
          simpa [BRAND_PRIORITY_own] using h1
        rcases hmem with hm | hm <;> rw [hm] <;> decide
      cases hq : q x <;>
        (simp only [List.filter_cons, h1, h2, Bool.not_true, Bool.not_false, Bool.false_and,
          List.countP_cons, hq, if_true, if_false, ite_true, ite_false, Bool.false_eq_true,
          reduceIte]
         omega)
    · have h1' : BRAND_PRIORITY_own.contains x.metadata.brand = false := by
        cases hb : BRAND_PRIORITY_own.contains x.metadata.brand
        · rfl
        · exact absurd hb h1
      by_cases h2 : BRAND_PRIORITY_popular.contains x.metadata.brand = true
      · cases hq : q x <;>
          (simp only [List.filter_cons, h1', h2, Bool.not_true, Bool.not_false, Bool.true_and,
            Bool.false_and, List.countP_cons, hq, if_true, if_false, ite_true, ite_false,
            Bool.false_eq_true, reduceIte]
           omega)
      · have h2' : BRAND_PRIORITY_popular.contains x.metadata.brand = false := by
          cases hb : BRAND_PRIORITY_popular.contains x.metadata.brand
          · rfl
          · exact absurd hb h2
        cases hq : q x <;>
          (simp only [List.filter_cons, h1', h2', Bool.not_true, Bool.not_false, Bool.true_and,
            Bool.and_self, List.countP_cons, hq, if_true, if_false, ite_true, ite_false,
            Bool.false_eq_true, reduceIte]
           omega)

theorem balance_parts_le (q : SearchMatch → Bool) (results : List SearchMatch)
    (n : Int) (m : Nat) :
    ((results.filter fun r => BRAND_PRIORITY_own.contains r.metadata.brand).take 1).countP q
    + (jsTake n (results.filter fun r =>
        BRAND_PRIORITY_popular.contains r.metadata.brand)).countP q
    + ((results.filter fun r =>
        !BRAND_PRIORITY_own.contains r.metadata.brand &&
        !BRAND_PRIORITY_popular.contains r.metadata.brand).take m).countP q
    ≤ results.countP q := by
  have hp := brand_partition_countP q results
  have c1 := (List.take_sublist 1 (results.filter fun r =>
    BRAND_PRIORITY_own.contains r.metadata.brand)).countP_le q
  have c2 := (jsTake_sublist n (results.filter fun r =>
    BRAND_PRIORITY_popular.contains r.metadata.brand)).countP_le q
  have c3 := (List.take_sublist m (results.filter fun r =>
    !BRAND_PRIORITY_own.contains r.metadata.brand &&
    !BRAND_PRIORITY_popular.contains r.metadata.brand)).countP_le q
  omega

theorem balance_two_parts_le (q : SearchMatch → Bool) (results : List SearchMatch)
    (n : Int) :
    ((results.filter fun r => BRAND_PRIORITY_own.contains r.metadata.brand).take 1).countP q
    + (jsTake n (results.filter fun r =>
        BRAND_PRIORITY_popular.contains r.metadata.brand)).countP q
    ≤ results.countP q := by
  have := balance_parts_le q results n 0
  simpa using this

theorem balanceResults_countP_le (q : SearchMatch → Bool) (results : List SearchMatch)
    (limit : Nat) :
    (balanceResults results limit).countP q ≤ results.countP q := by
  simp only [balanceResults]
  split
  · rw [List.countP_append, List.countP_append]
    exact balance_parts_le q results _ _
  · rw [List.countP_append]
    exact balance_two_parts_le q results _

theorem applyBrandQuota_house_le_one (o : Oracle) (query : String) (topK : Nat)
    (sortedProducts : List SearchMatch) :
    (applyBrandQuota o query topK sortedProducts).countP (fun p => hasRequiredBrand [p])
      ≤ 1 := by
  unfold applyBrandQuota
  by_cases hb : hasRequiredBrand sortedProducts = true
  · rw [if_neg (by simp [hb])]
    by_cases hc : (sortedProducts.filter fun p => hasRequiredBrand [p]).length > 1
    · rw [if_pos hc]
      rcases hf : sortedProducts.find? (fun p => hasRequiredBrand [p]) with _ | p₀
      · exfalso
        have hpos : 0 < (sortedProducts.filter fun p => hasRequiredBrand [p]).length := by
          omega
        obtain ⟨x, hx⟩ := List.exists_mem_of_length_pos hpos
        have hxm := List.mem_filter.mp hx
        have := List.find?_eq_none.mp hf x hxm.1
        exact this hxm.2
      · refine le_trans ((List.take_sublist _ _).countP_le _) ?_
        rw [List.countP_cons]
        have hp₀ : hasRequiredBrand [p₀] = true := by
          have h := List.find?_some hf
          simpa using h
        have hz : (sortedProducts.filter fun p => !hasRequiredBrand [p]).countP
            (fun p => hasRequiredBrand [p]) = 0 := by
          rw [List.countP_eq_zero]
          intro a ha
          have h2 := (List.mem_filter.mp ha).2
          simp only [Bool.not_eq_true'] at h2
          simp [h2]
        rw [hz, hp₀]
        simp
    · rw [if_neg hc]
      refine le_trans ((List.take_sublist _ _).countP_le _) ?_
      rw [List.countP_eq_length_filter]
      omega
  · have hb' : hasRequiredBrand sortedProducts = false := by
      cases h : hasRequiredBrand sortedProducts
      · rfl
      · exact absurd h hb
    rw [if_pos (by simp [hb'])]
    have hz : sortedProducts.countP (fun p => hasRequiredBrand [p]) = 0 := by
      rw [List.countP_eq_zero]
      intro a ha hpa
      have hany := hasRequiredBrand_eq_any sortedProducts
      rw [hb'] at hany
      exact (List.any_eq_false.mp hany.symm) a ha hpa
    by_cases hbp : (searchRequiredBrandProducts o query 1).length > 0
    · rw [if_pos hbp]
      rw [List.countP_append]
      have h1 : (searchRequiredBrandProducts o query 1).countP (fun p => hasRequiredBrand [p])
          ≤ (searchRequiredBrandProducts o query 1).length := List.countP_le_length _
      have h2 := searchRequiredBrandProducts_length_le o query 1
      have h3 := (List.take_sublist (topK - 1) sortedProducts).countP_le
        (fun p => hasRequiredBrand [p])
      omega
    · rw [if_neg hbp]
      have h3 := (List.take_sublist topK sortedProducts).countP_le
        (fun p => hasRequiredBrand [p])
      omega

theorem searchProducts_house_le_one (o : Oracle) (query : String) (config : SearchConfig)
    (r : VectorSearchResult) (h : searchProducts o query config = .ok r) :
    r.products.countP (fun p => hasRequiredBrand [p]) ≤ 1 := by
  simp only [searchProducts] at h
  rcases htq : o.textQuery query config.topK with e | allMatches <;> simp only [htq] at h
  · exact absurd h (by simp)
  · injection h with h
    subst h
    exact applyBrandQuota_house_le_one o query config.topK _

theorem getPopularProducts_house_le_one (o : Oracle) (limit : Nat) :
    (getPopularProducts o limit).countP (fun p => hasRequiredBrand [p]) ≤ 1 := by
  unfold getPopularProducts
  split
  · simp
  · next r hs => exact searchProducts_house_le_one _ _ _ r hs

theorem dispatchSearch_recommendation_house_le_one (o : Oracle) (intent : UserIntent)
    (l : List SearchMatch) (hrec : intent.searchType = "recommendation")
    (h : dispatchSearch o intent = .ok l) :
    l.countP (fun p => hasRequiredBrand [p]) ≤ 1 := by
  unfold dispatchSearch at h
  rw [hrec] at h
  rw [if_neg (by decide)] at h
  rw [if_neg (by decide)] at h
  rw [if_pos rfl] at h
  split at h
  · exact absurd h (by simp)
  · next r hs =>
    injection h with h
    subst h
    split
    · exact le_trans (balanceResults_countP_le _ _ _)
        (searchProducts_house_le_one _ _ _ _ hs)
    · exact searchProducts_house_le_one _ _ _ _ hs

theorem applyNoveltyAndFallback_article (config : ChatbotConfig) (o : Oracle)
    (intent : UserIntent) (shown : List String) (products : List SearchMatch)
    (h : intent.searchType = "article_search") :
    applyNoveltyAndFallback config o intent shown products = products := by
  simp only [applyNoveltyAndFallback]
  rw [if_neg (fun hcon => hcon.2.1 h)]
  rw [if_neg (fun hc => hc h)]

theorem applyNoveltyAndFallback_house_le_one (config : ChatbotConfig) (o : Oracle)
    (intent : UserIntent) (shown : List String) (products : List SearchMatch)
    (hmin : config.minProductsRequired ≤ 1)
    (hd : products.countP (fun p => hasRequiredBrand [p]) ≤ 1) :
    (applyNoveltyAndFallback config o intent shown products).countP
      (fun p => hasRequiredBrand [p]) ≤ 1 := by
  simp only [applyNoveltyAndFallback]
  by_cases hart : intent.searchType = "article_search"
  · rw [if_neg (fun hcon => hcon.2.1 hart)]
    rw [if_neg (fun hc => hc hart)]
    exact hd
  · rw [if_pos hart]
    by_cases hcond : (filterNewProducts products shown).length < config.minProductsRequired
        ∧ ¬(intent.searchType = "article_search") ∧ ¬(intent.searchType = "find_similar")
    · rw [if_pos hcond]
      have hzero : filterNewProducts products shown = [] := by
        have h1 : (filterNewProducts products shown).length = 0 := by
          have := hcond.1
          omega
        exact List.length_eq_zero.mp h1
      rw [hzero, List.nil_append]
      refine le_trans ((List.take_sublist _ _).countP_le _) ?_
      refine le_trans (dedupById_countP_le _ _) ?_
      refine le_trans ((List.filter_sublist _).countP_le _) ?_
      exact getPopularProducts_house_le_one o 10
    · rw [if_neg hcond]
      exact le_trans ((List.filter_sublist _).countP_le _) hd

/-! ## C3: the brand-quota invariant of recommendation turns -/

/-- **C3** — For every recommendation-dispatch turn (the code always uses
`top_k ∈ {6, 9} > 1` there), the final candidate list handed to generation
contains at most one house-brand (Biotus / My Nutri Week, by the substring
classification) item — including through the novelty filter and the
popular-products fallback, provided `minProductsRequired` is at most 1 (its
default value; a larger configured value can merge a house item from the
fallback pool next to one from the dispatch). -/
theorem recommendation_house_brand_quota (config : ChatbotConfig) (o : Oracle)
    (intent : UserIntent) (shown : List String) (l : List SearchMatch)
    (hmin : config.minProductsRequired ≤ 1)
    (hrec : intent.searchType = "recommendation")
    (hok : computeCandidates config o intent shown = .ok l) :
    l.countP (fun p => hasRequiredBrand [p]) ≤ 1 := by
  unfold computeCandidates at hok
  split at hok
  · exact absurd hok (by simp)
  · next products hd =>
    injection hok with hok
    subst hok
    exact applyNoveltyAndFallback_house_le_one config o intent shown products hmin
      (dispatchSearch_recommendation_house_le_one o intent products hrec hd)

/-- Demo oracle for the C3 witness: one Biotus product in the index. -/
def oC3 : Oracle :=
  ⟨fun _ _ => .ok [mkDemoMatch "p1" 1 "Biotus"],
   fun _ _ _ => .ok [],
   fun _ _ => .error ⟨"unused"⟩,
   fun _ _ _ => .error ⟨"unused"⟩,
   fun _ => none⟩

/-- A demo recommendation intent. -/
def recDemoIntent : UserIntent := ⟨"recommendation", "вітамін д3", "запит про вітаміни", false⟩

/-- Witness for C3: a concrete recommendation turn whose candidate list holds
exactly one house-brand item. -/
theorem recommendation_house_brand_quota_witness :
    ([mkDemoMatch "p1" 1 "Biotus"] : List SearchMatch).countP
      (fun p => hasRequiredBrand [p]) ≤ 1 :=
  recommendation_house_brand_quota CHATBOT_CONFIG oC3 recDemoIntent []
    [mkDemoMatch "p1" 1 "Biotus"] (by decide) rfl rfl

/-! ## C6: the novelty invariant -/

theorem applyNoveltyAndFallback_nonarticle_novel (config : ChatbotConfig) (o : Oracle)
    (intent : UserIntent) (shown : List String) (products : List SearchMatch)
    (hna : intent.searchType ≠ "article_search") :
    ∀ m ∈ applyNoveltyAndFallback config o intent shown products,
      shown.contains m.id = false := by
  intro m hm
  simp only [applyNoveltyAndFallback] at hm
  rw [if_pos hna] at hm
  split at hm
  · have h1 := List.mem_of_mem_take hm
    have h2 := dedupById_mem _ _ h1
    rcases List.mem_append.mp h2 with h3 | h3
    · have := (List.mem_filter.mp h3).2
      simpa using this
    · have := (List.mem_filter.mp h3).2
      simpa using this
  · have := (List.mem_filter.mp hm).2
    simpa using this

/-- **C6** — no candidate of a non-article turn's final list was in the
session's shown-set as it existed before the turn (the popular-products
fallback is filtered against the same set), while an article turn's candidate
computation ignores the shown-set entirely (the novelty filter and the
fallback are both skipped). -/
theorem novelty_invariant (config : ChatbotConfig) (o : Oracle) (intent : UserIntent)
    (shown : List String) (l : List SearchMatch)
    (hok : computeCandidates config o intent shown = .ok l) :
    (intent.searchType ≠ "article_search" → ∀ m ∈ l, shown.contains m.id = false)
    ∧ (intent.searchType = "article_search" →
        ∀ shown' : List String, computeCandidates config o intent shown' = .ok l) := by
  constructor
  · intro hna m hm
    unfold computeCandidates at hok
    split at hok
    · exact absurd hok (by simp)
    · next products hd =>
      injection hok with hok
      subst hok
      exact applyNoveltyAndFallback_nonarticle_novel config o intent shown products hna m hm
  · intro hart shown'
    unfold computeCandidates at hok ⊢
    split at hok
    · exact absurd hok (by simp)
    · next products hd =>
      rw [applyNoveltyAndFallback_article config o intent shown' products hart]
      rw [applyNoveltyAndFallback_article config o intent shown products hart] at hok
      exact hok

/-- Demo oracle for the C6 witness: two products, one already shown. -/
def oC6 : Oracle :=
  ⟨fun _ _ => .ok [mkDemoMatch "a" 1 "Biotus", mkDemoMatch "b" 1 "Solgar"],
   fun _ _ _ => .ok [],
   fun _ _ => .error ⟨"unused"⟩,
   fun _ _ _ => .error ⟨"unused"⟩,
   fun _ => none⟩

/-- Witness for C6: the id surviving the novelty filter is not in the
pre-turn shown-set. -/
theorem novelty_invariant_witness :
    (["a"] : List String).contains (mkDemoMatch "b" 1 "Solgar").id = false :=
  (novelty_invariant CHATBOT_CONFIG oC6 recDemoIntent ["a"]
    [mkDemoMatch "b" 1 "Solgar"] rfl).1 (by decide)
    (mkDemoMatch "b" 1 "Solgar") (by decide)

/-! ## C1: provider failures in the retrieval dispatch -/

/-- An oracle whose every provider call fails. -/
def failingOracle : Oracle :=
  ⟨fun _ _ => .error ⟨"provider down"⟩,
   fun _ _ _ => .error ⟨"provider down"⟩,
   fun _ _ => .error ⟨"provider down"⟩,
   fun _ _ _ => .error ⟨"provider down"⟩,
   fun _ => none⟩

/-- **C1, counterexample** — an `article_search` turn whose provider calls all
fail returns a *successful* `no products found` envelope (with
`productsFound = 0`), because `searchByArticle` catches the failure and
returns `null`: the turn does not fail. -/
theorem provider_failure_counterexample :
    processChatMessage CHATBOT_CONFIG failingOracle 0 "session-1" ⟨"SOL-01701", none⟩ []
      = .ok (⟨NO_PRODUCTS_FOUND_MESSAGE, "session-1", 0, ⟨true, ""⟩, none⟩,
        [("session-1",
          ⟨"session-1",
           [⟨ChatRole.user, "SOL-01701"⟩, ⟨ChatRole.assistant, NO_PRODUCTS_FOUND_MESSAGE⟩],
           0, 0, []⟩)]) := by
  rfl

/-- **C1, amended** — with a provider whose text-query (embedding or
vector-index) calls fail: a `recommendation` turn and a `find_similar` turn —
both dispatched through `searchProducts`, which rethrows — propagate the
failure as a turn-level error; but an `article_search` turn yields an *empty
successful* candidate list, because `searchByArticle` catches the failure and
returns `null` (so the pipeline goes on to return the `no products found`
success envelope); and the helpers `findSimilarProductsByPrice` and
`getPopularProducts` likewise catch the failure and return empty lists. -/
theorem provider_failure_dispatch (config : ChatbotConfig) (o : Oracle)
    (intent : UserIntent) (shown : List String) (e : ProviderError)
    (hfail : ∀ q k, o.textQuery q k = .error e) :
    (intent.searchType = "recommendation" →
      computeCandidates config o intent shown = .error .searchFailed)
    ∧ (intent.searchType = "find_similar" →
      computeCandidates config o intent shown = .error .searchFailed)
    ∧ (intent.searchType = "article_search" →
      computeCandidates config o intent shown = .ok [])
    ∧ (∀ (pm : ProductMetadata) (limit : Nat), findSimilarProductsByPrice o pm limit = [])
    ∧ (∀ limit : Nat, getPopularProducts o limit = []) := by
  refine ⟨?_, ?_, ?_, ?_, ?_⟩
  · intro hrec
    have hsp : searchProducts o intent.searchQuery
        ⟨if intent.needsMultipleComponents then 9 else 6,
         DEFAULT_SEARCH_CONFIG.minSimilarityScore⟩ = .error .searchFailed := by
      simp only [searchProducts, hfail]
    unfold computeCandidates dispatchSearch
    rw [hrec]
    rw [if_neg (by decide), if_neg (by decide), if_pos rfl]
    simp only [hsp]
  · intro hsim
    have hsp : searchProducts o intent.searchQuery
        ⟨1, DEFAULT_SEARCH_CONFIG.minSimilarityScore⟩ = .error .searchFailed := by
      simp only [searchProducts, hfail]
    unfold computeCandidates dispatchSearch
    rw [hsim]
    rw [if_neg (by decide), if_pos rfl]
    simp only [hsp]
  · intro hart
    have hsa : searchByArticle o intent.searchQuery = none := by
      simp only [searchByArticle, hfail]
    unfold computeCandidates dispatchSearch
    rw [hart]
    rw [if_pos rfl]
    simp only [hsa]
    rw [applyNoveltyAndFallback_article config o intent shown [] hart]
  · intro pm limit
    simp only [findSimilarProductsByPrice, hfail]
  · intro limit
    have hsp : searchProducts o "вітаміни для здоров\u0027я та імунітету"
        ⟨limit, DEFAULT_SEARCH_CONFIG.minSimilarityScore⟩ = .error .searchFailed := by
      simp only [searchProducts, hfail]
    simp only [getPopularProducts, hsp]

/-- Witness for the amended C1: with the failing oracle, a recommendation
turn and a find_similar turn error, an article turn yields the empty success,
and both catching helpers return empty lists. -/
theorem provider_failure_dispatch_witness :
    computeCandidates CHATBOT_CONFIG failingOracle recDemoIntent [] = .error .searchFailed
    ∧ computeCandidates CHATBOT_CONFIG failingOracle
        ⟨"find_similar", "вітамін д3", "схожі товари", false⟩ [] = .error .searchFailed
    ∧ computeCandidates CHATBOT_CONFIG failingOracle
        ⟨"article_search", "SOL-01701", "Пошук по артикулу", false⟩ [] = .ok []
    ∧ findSimilarProductsByPrice failingOracle (mkDemoMeta "p1" "Solgar") 5 = []
    ∧ getPopularProducts failingOracle 10 = [] :=
  ⟨(provider_failure_dispatch CHATBOT_CONFIG failingOracle recDemoIntent []
      ⟨"provider down"⟩ (fun _ _ => rfl)).1 rfl,
   (provider_failure_dispatch CHATBOT_CONFIG failingOracle
      ⟨"find_similar", "вітамін д3", "схожі товари", false⟩ []
      ⟨"provider down"⟩ (fun _ _ => rfl)).2.1 rfl,
   (provider_failure_dispatch CHATBOT_CONFIG failingOracle
      ⟨"article_search", "SOL-01701", "Пошук по артикулу", false⟩ []
      ⟨"provider down"⟩ (fun _ _ => rfl)).2.2.1 rfl,
   (provider_failure_dispatch CHATBOT_CONFIG failingOracle recDemoIntent []
      ⟨"provider down"⟩ (fun _ _ => rfl)).2.2.2.1 (mkDemoMeta "p1" "Solgar") 5,
   (provider_failure_dispatch CHATBOT_CONFIG failingOracle recDemoIntent []
      ⟨"provider down"⟩ (fun _ _ => rfl)).2.2.2.2 10⟩

/-! ## C5: the off-domain redirect condition -/

theorem continueTurn_relevanceCheck (config : ChatbotConfig) (o : Oracle) (now : Nat)
    (sessionId userMessage : String) (history : List ChatMessage) (intent : UserIntent)
    (rc : RelevanceCheck) (store : Store) (r : ChatResponse) (st : Store)
    (h : continueTurn config o now sessionId userMessage history intent rc store
      = .ok (r, st)) :
    r.relevanceCheck = rc := by
  unfold continueTurn at h
  split at h
  · exact absurd h (by simp)
  · split at h
    · injection h with h
      injection h with h1 h2
      rw [← h1]
    · split at h
      · exact absurd h (by simp)
      · injection h with h
        injection h with h1 h2
        rw [← h1]

/-- **C5, amended** — on the model-assisted path (no greeting short-circuit,
no article match, a valid supplied session token), `processChatMessage`
returns the fixed off-domain redirect envelope exactly when the resolved
intent's context string contains the substring `релевантн`; in particular a
context affirming relevance with a word containing that substring (e.g.
`запит релевантний`) triggers the redirect, and a reply whose JSON omits
`isRelevant` is treated as relevant exactly when its context lacks the
substring. -/
theorem offdomain_redirect_iff (config : ChatbotConfig) (o : Oracle) (now : Nat)
    (fresh : String) (request : ChatRequest) (store : Store) (sid : String)
    (hmsg : sanitizeInput request.message ≠ "")
    (hsid : request.sessionId = some sid) (hne : sid ≠ "")
    (hval : isValidSessionId sid = true)
    (hgreet : ¬((getConversationHistory config store sid).length = 0
        ∧ isGreeting (sanitizeInput request.message) = true))
    (hart : jsArticleMatch (sanitizeInput request.message) = none) :
    jsIncludes (analyzeUserIntentWithAI (sanitizeInput request.message)
        (getConversationHistory config store sid)
        (o.intentComplete (sanitizeInput request.message)
          (getConversationHistory config store sid))).context "релевантн" = true
     ↔ processChatMessage config o now fresh request store
        = .ok (⟨OFF_DOMAIN_REDIRECT_MESSAGE, sid, 0, ⟨false, OFF_DOMAIN_REASON⟩, none⟩,
          addMessageToHistory config now sid ChatRole.assistant OFF_DOMAIN_REDIRECT_MESSAGE
            (addMessageToHistory config now sid ChatRole.user
              (sanitizeInput request.message) store)) := by
  have hred : processChatMessage config o now fresh request store
      = if !jsIncludes (analyzeUserIntentWithAI (sanitizeInput request.message)
            (getConversationHistory config store sid)
            (o.intentComplete (sanitizeInput request.message)
              (getConversationHistory config store sid))).context "релевантн" then
          continueTurn config o now sid (sanitizeInput request.message)
            (getConversationHistory config store sid)
            (analyzeUserIntentWithAI (sanitizeInput request.message)
              (getConversationHistory config store sid)
              (o.intentComplete (sanitizeInput request.message)
                (getConversationHistory config store sid)))
            ⟨true, (analyzeUserIntentWithAI (sanitizeInput request.message)
              (getConversationHistory config store sid)
              (o.intentComplete (sanitizeInput request.message)
                (getConversationHistory config store sid))).context⟩ store
        else
          .ok (⟨OFF_DOMAIN_REDIRECT_MESSAGE, sid, 0, ⟨false, OFF_DOMAIN_REASON⟩, none⟩,
            addMessageToHistory config now sid ChatRole.assistant OFF_DOMAIN_REDIRECT_MESSAGE
              (addMessageToHistory config now sid ChatRole.user
                (sanitizeInput request.message) store)) := by
    simp only [processChatMessage, hsid]
    rw [if_neg hmsg, if_neg hne, if_pos hval]
    simp only [if_neg hgreet, hart]
  constructor
  · intro hc
    rw [hred, if_neg (by simp [hc])]
  · intro heq
    by_contra hc
    have hc' : jsIncludes (analyzeUserIntentWithAI (sanitizeInput request.message)
        (getConversationHistory config store sid)
        (o.intentComplete (sanitizeInput request.message)
          (getConversationHistory config store sid))).context "релевантн" = false := by
      cases hb : jsIncludes (analyzeUserIntentWithAI (sanitizeInput request.message)
          (getConversationHistory config store sid)
          (o.intentComplete (sanitizeInput request.message)
            (getConversationHistory config store sid))).context "релевантн"
      · rfl
      · exact absurd hb hc
    rw [hred, if_pos (by simp [hc'])] at heq
    have hrc := continueTurn_relevanceCheck _ _ _ _ _ _ _ _ _ _ _ heq
    simp at hrc

/-- Demo oracle for the C5 counterexample: the classification reply omits
`isRelevant` and affirms relevance in its context (`запит релевантний`). -/
def oC5 : Oracle :=
  ⟨fun _ _ => .ok [], fun _ _ _ => .ok [],
   fun _ _ => .ok (IntentReply.fields none (some "recommendation") (some "вітамін д3")
     (some "запит релевантний") none),
   fun _ _ _ => .error ⟨"unused"⟩,
   fun _ => none⟩

/-- **C5, counterexample** — a model reply that *omits* `isRelevant` (so the
turn should be treated as relevant) but whose context affirms relevance with
the word `релевантний` still makes `processChatMessage` return the off-domain
redirect envelope with `isRelevant = false` and no retrieval. -/
theorem offdomain_redirect_counterexample :
    oC5.intentComplete "вітамін" []
        = .ok (IntentReply.fields none (some "recommendation") (some "вітамін д3")
            (some "запит релевантний") none)
    ∧ processChatMessage CHATBOT_CONFIG oC5 0 "fresh"
        ⟨"вітамін", some demoUuid⟩ []
        = .ok (⟨OFF_DOMAIN_REDIRECT_MESSAGE, demoUuid, 0, ⟨false, OFF_DOMAIN_REASON⟩, none⟩,
          addMessageToHistory CHATBOT_CONFIG 0 demoUuid ChatRole.assistant
            OFF_DOMAIN_REDIRECT_MESSAGE
            (addMessageToHistory CHATBOT_CONFIG 0 demoUuid ChatRole.user
              (sanitizeInput "вітамін") [])) :=
  ⟨rfl, rfl⟩

/-- Demo oracle for the C5 witness: the classification reply sets
`isRelevant = false`, producing the marker intent whose context
`нерелевантний запит` contains the substring. -/
def oC5b : Oracle :=
  ⟨fun _ _ => .ok [], fun _ _ _ => .ok [],
   fun _ _ => .ok (IntentReply.fields (some false) none none none none),
   fun _ _ _ => .error ⟨"unused"⟩,
   fun _ => none⟩

/-- Witness for C5: a concrete model-assisted turn whose intent context
contains `релевантн` yields the redirect envelope. -/
theorem offdomain_redirect_iff_witness :
    processChatMessage CHATBOT_CONFIG oC5b 0 "fresh"
        ⟨"вітамін", some demoUuid⟩ []
      = .ok (⟨OFF_DOMAIN_REDIRECT_MESSAGE, demoUuid, 0, ⟨false, OFF_DOMAIN_REASON⟩, none⟩,
        addMessageToHistory CHATBOT_CONFIG 0 demoUuid ChatRole.assistant
          OFF_DOMAIN_REDIRECT_MESSAGE
          (addMessageToHistory CHATBOT_CONFIG 0 demoUuid ChatRole.user
            (sanitizeInput "вітамін") [])) :=
  (offdomain_redirect_iff CHATBOT_CONFIG oC5b 0 "fresh" ⟨"вітамін", some demoUuid⟩ []
    demoUuid (by decide) rfl (by decide) (by decide) (by decide) (by decide)).mp (by decide)
